import Mathlib

/-!
# x402-go — verification of the payment-gateway core

A shallow embedding, in Lean 4, of the core of the `x402-go` repository:

* the base64 + JSON wire codec (`utils.DecodePaymentHeader`, the
  `PaymentPayload` / `PaymentRequired` data model and the way Go's
  `encoding/json` marshals it),
* the facilitator's six-stage verification pipeline
  (`facilitator/config.go`), its `/verify` HTTP handler, and the
  settlement path (`settlePayment` / `sendTransferWithAuthorization`),
* the resource-gateway Gin middleware (`X402Middleware.Handler`,
  `bufferedWriter`).

Modelling conventions, used throughout:

* Go byte slices are `List Nat` (each element < 256 where it matters);
  Go strings are Lean `String`s (valid Unicode; Go's invalid-UTF-8 corner
  is out of scope), big.Int is `Int`, and Go `int` / `int64` are `Int`.
* Go maps appear as association lists; a `nil` map and an empty map are
  identified (both are `[]`), and list order stands in for Go's
  unspecified map iteration order.
* `any`-typed JSON content (`map[string]any` fields) is modelled by the
  JSON value type `JVal` below, numbers restricted to integers (the
  protocol's numeric fields are all integral).
* External primitives that the repository only calls — keccak, ECDSA
  recovery, the Ethereum RPC — are oracle fields of an `Env` record; the
  control flow around them is translated from the source.
* `encoding/json` is modelled concretely: a compact serializer with Go's
  escaping rules and a parser over the serialized characters, proven to
  invert it.  (Go also accepts inter-token whitespace and non-integer
  numbers on input; those inputs never arise in the claims.)
-/

set_option maxHeartbeats 1000000

namespace X402

/-! ## 1. JSON values, Go-style serialization, and a verified parser -/

/-- A JSON value.  Stands for Go's `any` after `encoding/json` decoding
(objects as association lists, numbers as integers). -/
inductive JVal where
  | jnull
  | jbool (b : Bool)
  | jint (n : Int)
  | jstr (s : String)
  | jarr (xs : List JVal)
  | jobj (kvs : List (String × JVal))

/-- The decimal digit character for `d < 10`. -/
def digitCh (d : Nat) : Char := Char.ofNat (48 + d)

/-- Decimal digit characters of `n`, most significant first. -/
def natChars (n : Nat) : List Char :=
  if n < 10 then [digitCh n] else natChars (n / 10) ++ [digitCh (n % 10)]
termination_by n
decreasing_by exact Nat.div_lt_self (by omega) (by omega)

/-- Decimal characters of an integer, matching `big.Int.String` and the
integers emitted by Go's `encoding/json`. -/
def intChars (n : Int) : List Char :=
  if n < 0 then '-' :: natChars n.natAbs else natChars n.natAbs

/-- `strconv`-style decimal rendering of an integer, as a string. -/
def intStr (n : Int) : String := String.mk (intChars n)

/-- The lowercase hex digit character for `d < 16`. -/
def hexCh (d : Nat) : Char :=
  if d < 10 then Char.ofNat (48 + d) else Char.ofNat (97 + (d - 10))

/-- Numeric value of a hex digit character (either case), if it is one. -/
def hexVal (c : Char) : Option Nat :=
  if 48 ≤ c.toNat ∧ c.toNat ≤ 57 then some (c.toNat - 48)
  else if 97 ≤ c.toNat ∧ c.toNat ≤ 102 then some (c.toNat - 97 + 10)
  else if 65 ≤ c.toNat ∧ c.toNat ≤ 70 then some (c.toNat - 65 + 10)
  else none

/-- One character escaped the way Go's `encoding/json` writes it: `\"`,
`\\`, `\n`, `\r`, `\t`; other control characters, `<`, `>`, `&`, U+2028
and U+2029 as `\uXXXX`; everything else literally. -/
def escC (c : Char) : List Char :=
  if c = '"' then ['\\', '"']
  else if c = '\\' then ['\\', '\\']
  else if c = '\n' then ['\\', 'n']
  else if c = '\r' then ['\\', 'r']
  else if c = '\t' then ['\\', 't']
  else if c.toNat < 32 ∨ c = '<' ∨ c = '>' ∨ c = '&' ∨
          c.toNat = 8232 ∨ c.toNat = 8233 then
    let v := c.toNat
    ['\\', 'u', hexCh (v / 4096 % 16), hexCh (v / 256 % 16),
     hexCh (v / 16 % 16), hexCh (v % 16)]
  else [c]

/-- A string body, escaped character by character. -/
def escBody : List Char → List Char
  | [] => []
  | c :: t => escC c ++ escBody t

mutual
/-- Compact Go-style JSON serialization of a value, as characters. -/
def jser : JVal → List Char
  | .jnull => ['n', 'u', 'l', 'l']
  | .jbool true => ['t', 'r', 'u', 'e']
  | .jbool false => ['f', 'a', 'l', 's', 'e']
  | .jint n => intChars n
  | .jstr s => '"' :: (escBody s.data ++ ['"'])
  | .jarr xs => '[' :: (jserArr xs ++ [']'])
  | .jobj kvs => '{' :: (jserObj kvs ++ ['}'])
/-- Comma-separated serialization of array elements. -/
def jserArr : List JVal → List Char
  | [] => []
  | [x] => jser x
  | x :: xs => jser x ++ ',' :: jserArr xs
/-- Comma-separated serialization of object members. -/
def jserObj : List (String × JVal) → List Char
  | [] => []
  | [(k, v)] => '"' :: (escBody k.data ++ '"' :: ':' :: jser v)
  | (k, v) :: kvs =>
      '"' :: (escBody k.data ++ '"' :: ':' :: (jser v ++ ',' :: jserObj kvs))
end

/-- Greedily read decimal digits, accumulating their value. -/
def readDigits (acc : Nat) : List Char → Nat × List Char
  | c :: t => if c.isDigit then readDigits (acc * 10 + (c.toNat - 48)) t else (acc, c :: t)
  | [] => (acc, [])

/-- Unescape a single-character JSON escape code. -/
def unesc : Char → Option Char
  | 'n' => some (Char.ofNat 10)
  | 't' => some (Char.ofNat 9)
  | 'r' => some (Char.ofNat 13)
  | 'f' => some (Char.ofNat 12)
  | 'b' => some (Char.ofNat 8)
  | '/' => some '/'
  | '\\' => some '\\'
  | '"' => some '"'
  | _ => none

/-- Parse a JSON string body (after the opening quote) up to the closing
quote, undoing escapes. -/
def pStr : List Char → Option (List Char × List Char)
  | '"' :: r => some ([], r)
  | '\\' :: 'u' :: a :: b :: c :: d :: r =>
      match hexVal a, hexVal b, hexVal c, hexVal d with
      | some va, some vb, some vc, some vd =>
          match pStr r with
          | some (cs, rest) =>
              some (Char.ofNat (((va * 16 + vb) * 16 + vc) * 16 + vd) :: cs, rest)
          | none => none
      | _, _, _, _ => none
  | '\\' :: e :: r =>
      match unesc e with
      | some ch =>
          match pStr r with
          | some (cs, rest) => some (ch :: cs, rest)
          | none => none
      | none => none
  | c :: r =>
      if c = '\\' then none
      else
        match pStr r with
        | some (cs, rest) => some (c :: cs, rest)
        | none => none
  | [] => none

mutual
/-- Fueled parser for one compact-JSON value; returns it and the rest of
the input. -/
def pJ : Nat → List Char → Option (JVal × List Char)
  | 0, _ => none
  | fuel + 1, s =>
    match s with
    | 'n' :: 'u' :: 'l' :: 'l' :: r => some (.jnull, r)
    | 't' :: 'r' :: 'u' :: 'e' :: r => some (.jbool true, r)
    | 'f' :: 'a' :: 'l' :: 's' :: 'e' :: r => some (.jbool false, r)
    | '"' :: r =>
        match pStr r with
        | some (cs, rest) => some (.jstr (String.mk cs), rest)
        | none => none
    | '[' :: r =>
        match r with
        | ']' :: rest => some (.jarr [], rest)
        | _ =>
            match pL fuel r with
            | some (xs, rest) => some (.jarr xs, rest)
            | none => none
    | '{' :: r =>
        match r with
        | '}' :: rest => some (.jobj [], rest)
        | _ =>
            match pO fuel r with
            | some (kvs, rest) => some (.jobj kvs, rest)
            | none => none
    | '-' :: c :: r =>
        if c.isDigit then
          let (m, rest) := readDigits 0 (c :: r)
          some (.jint (-(m : Int)), rest)
        else none
    | c :: r =>
        if c.isDigit then
          let (m, rest) := readDigits 0 (c :: r)
          some (.jint (m : Int), rest)
        else none
    | [] => none
/-- Fueled parser for one-or-more array elements up to the closing `]`. -/
def pL : Nat → List Char → Option (List JVal × List Char)
  | 0, _ => none
  | fuel + 1, s =>
    match pJ fuel s with
    | some (x, r) =>
        match r with
        | ',' :: r2 =>
            match pL fuel r2 with
            | some (xs, rest) => some (x :: xs, rest)
            | none => none
        | ']' :: r2 => some ([x], r2)
        | _ => none
    | none => none
/-- Fueled parser for one-or-more object members up to the closing brace. -/
def pO : Nat → List Char → Option (List (String × JVal) × List Char)
  | 0, _ => none
  | fuel + 1, s =>
    match s with
    | '"' :: r =>
        match pStr r with
        | some (kcs, r1) =>
            match r1 with
            | ':' :: r2 =>
                match pJ fuel r2 with
                | some (v, r3) =>
                    match r3 with
                    | ',' :: r4 =>
                        match pO fuel r4 with
                        | some (kvs, rest) => some ((String.mk kcs, v) :: kvs, rest)
                        | none => none
                    | '}' :: r4 => some ([(String.mk kcs, v)], r4)
                    | _ => none
                | none => none
            | _ => none
        | none => none
    | _ => none
end

/-- Parse a complete compact-JSON document (the whole input must be
consumed), as Go's `json.Unmarshal` does for the encoder's output. -/
def jparse (s : List Char) : Option JVal :=
  match pJ (s.length + 1) s with
  | some (j, []) => some j
  | _ => none

/-! ## 2. UTF-8 (Go strings are UTF-8 byte sequences) -/

/-- UTF-8 encoding of one Unicode scalar value. -/
def utf8Char (c : Char) : List Nat :=
  let v := c.toNat
  if v < 128 then [v]
  else if v < 2048 then [192 + v / 64, 128 + v % 64]
  else if v < 65536 then [224 + v / 4096, 128 + v / 64 % 64, 128 + v % 64]
  else [240 + v / 262144, 128 + v / 4096 % 64, 128 + v / 64 % 64, 128 + v % 64]

/-- UTF-8 encoding of a character sequence. -/
def utf8Enc : List Char → List Nat
  | [] => []
  | c :: t => utf8Char c ++ utf8Enc t

/-- Whether a byte is a UTF-8 continuation byte. -/
def isCont (b : Nat) : Prop := 128 ≤ b ∧ b < 192

instance (b : Nat) : Decidable (isCont b) := by unfold isCont; infer_instance

/-- UTF-8 decoding (fueled; the fuel is structural, one unit per
decoded character), rejecting malformed, overlong, surrogate and
out-of-range sequences. -/
def utf8DecF : Nat → List Nat → Option (List Char)
  | 0, _ => none
  | _ + 1, [] => some []
  | fuel + 1, b :: t =>
    if b < 128 then
      match utf8DecF fuel t with
      | some cs => some (Char.ofNat b :: cs)
      | none => none
    else if b < 192 then none
    else if b < 224 then
      match t with
      | b1 :: t' =>
          if isCont b1 then
            let v := (b - 192) * 64 + (b1 - 128)
            if 128 ≤ v then
              match utf8DecF fuel t' with
              | some cs => some (Char.ofNat v :: cs)
              | none => none
            else none
          else none
      | [] => none
    else if b < 240 then
      match t with
      | b1 :: b2 :: t' =>
          if isCont b1 ∧ isCont b2 then
            let v := (b - 224) * 4096 + (b1 - 128) * 64 + (b2 - 128)
            if 2048 ≤ v ∧ ¬(55296 ≤ v ∧ v < 57344) then
              match utf8DecF fuel t' with
              | some cs => some (Char.ofNat v :: cs)
              | none => none
            else none
          else none
      | _ => none
    else if b < 248 then
      match t with
      | b1 :: b2 :: b3 :: t' =>
          if isCont b1 ∧ isCont b2 ∧ isCont b3 then
            let v := (b - 240) * 262144 + (b1 - 128) * 4096 + (b2 - 128) * 64 + (b3 - 128)
            if 65536 ≤ v ∧ v < 1114112 then
              match utf8DecF fuel t' with
              | some cs => some (Char.ofNat v :: cs)
              | none => none
            else none
          else none
      | _ => none
    else none

/-- UTF-8 decoding of a byte sequence. -/
def utf8Dec (bs : List Nat) : Option (List Char) := utf8DecF (bs.length + 1) bs

/-! ## 3. Standard base64 (`encoding/base64` `StdEncoding`, with padding) -/

/-- Character `n` of the standard base64 alphabet, for `n < 64`. -/
def b64Chr (n : Nat) : Char :=
  if n < 26 then Char.ofNat (65 + n)
  else if n < 52 then Char.ofNat (97 + (n - 26))
  else if n < 62 then Char.ofNat (48 + (n - 52))
  else if n = 62 then '+'
  else '/'

/-- Index of a standard-base64 alphabet character. -/
def b64Val (c : Char) : Option Nat :=
  if 65 ≤ c.toNat ∧ c.toNat ≤ 90 then some (c.toNat - 65)
  else if 97 ≤ c.toNat ∧ c.toNat ≤ 122 then some (c.toNat - 97 + 26)
  else if 48 ≤ c.toNat ∧ c.toNat ≤ 57 then some (c.toNat - 48 + 52)
  else if c = '+' then some 62
  else if c = '/' then some 63
  else none

/-- Standard base64 encoding with `=` padding (`StdEncoding.EncodeToString`). -/
def b64Enc : List Nat → List Char
  | [] => []
  | [a] => [b64Chr (a / 4), b64Chr (a % 4 * 16), '=', '=']
  | [a, b] => [b64Chr (a / 4), b64Chr (a % 4 * 16 + b / 16), b64Chr (b % 16 * 4), '=']
  | a :: b :: c :: t =>
      b64Chr (a / 4) :: b64Chr (a % 4 * 16 + b / 16) ::
      b64Chr (b % 16 * 4 + c / 64) :: b64Chr (c % 64) :: b64Enc t

/-- Standard base64 decoding (`StdEncoding.DecodeString`): four-character
blocks, `=` padding only at the very end. -/
def b64Dec : List Char → Option (List Nat)
  | [] => some []
  | [c1, c2, '=', '='] =>
      match b64Val c1, b64Val c2 with
      | some v1, some v2 => some [v1 * 4 + v2 / 16]
      | _, _ => none
  | [c1, c2, c3, '='] =>
      match b64Val c1, b64Val c2, b64Val c3 with
      | some v1, some v2, some v3 => some [v1 * 4 + v2 / 16, v2 % 16 * 16 + v3 / 4]
      | _, _, _ => none
  | c1 :: c2 :: c3 :: c4 :: t =>
      match b64Val c1, b64Val c2, b64Val c3, b64Val c4 with
      | some v1, some v2, some v3, some v4 =>
          match b64Dec t with
          | some bs =>
              some ((v1 * 4 + v2 / 16) :: (v2 % 16 * 16 + v3 / 4) :: (v3 % 4 * 64 + v4) :: bs)
          | none => none
      | _, _, _, _ => none
  | _ => none

/-! ## 4. Hex helpers from `go-ethereum` (`hexutil`, `common`)

`hexutil.Decode` is strict (`0x` prefix, even length, valid digits);
`common.FromHex` is lenient (optional prefix, odd length zero-padded,
and `common.Hex2Bytes` keeps the bytes decoded before the first error). -/

/-- Decode hex digit pairs strictly: fails on an odd tail or a bad digit. -/
def hexPairsStrict : List Char → Option (List Nat)
  | [] => some []
  | [_] => none
  | a :: b :: t =>
      match hexVal a, hexVal b with
      | some va, some vb =>
          match hexPairsStrict t with
          | some bs => some ((va * 16 + vb) :: bs)
          | none => none
      | _, _ => none

/-- Decode hex digit pairs leniently, keeping the prefix decoded before
the first error (`hex.DecodeString`'s partial result, as kept by
`common.Hex2Bytes`). -/
def hexPairsLenient : List Char → List Nat
  | [] => []
  | [_] => []
  | a :: b :: t =>
      match hexVal a, hexVal b with
      | some va, some vb => (va * 16 + vb) :: hexPairsLenient t
      | _, _ => []

/-- `hexutil.Decode`: requires nonempty input with a `0x` prefix, then a
strict hex body. -/
def hexutilDecode (s : String) : Except String (List Nat) :=
  match s.data with
  | [] => .error "empty hex string"
  | '0' :: 'x' :: body =>
      match hexPairsStrict body with
      | some bs => .ok bs
      | none => .error "invalid hex string"
  | _ => .error "hex string without 0x prefix"

/-- `common.FromHex`: strip an optional `0x`, left-pad an odd length with
`0`, then decode leniently. -/
def fromHex (s : String) : List Nat :=
  let body :=
    match s.data with
    | '0' :: 'x' :: rest => rest
    | l => l
  let body := if body.length % 2 = 1 then '0' :: body else body
  hexPairsLenient body

/-- `common.BytesToAddress`: keep the last 20 bytes, left-padding with
zeros. -/
def bytesToAddress (bs : List Nat) : List Nat :=
  if bs.length ≤ 20 then List.replicate (20 - bs.length) 0 ++ bs
  else bs.drop (bs.length - 20)

/-- `common.HexToAddress`. -/
def hexToAddress (s : String) : List Nat := bytesToAddress (fromHex s)

/-- Lowercase hex characters of a byte sequence. -/
def hexOfBytes : List Nat → List Char
  | [] => []
  | b :: t => hexCh (b / 16 % 16) :: hexCh (b % 16) :: hexOfBytes t

/-- Lowercase `0x`-prefixed rendering of an address.  (go-ethereum's
`Address.Hex` applies EIP-55 checksum casing, which needs keccak; the
casing of this reason-string detail is abstracted to lowercase.) -/
def addressHex (bs : List Nat) : String := String.mk ('0' :: 'x' :: hexOfBytes bs)

/-! ## 5. The shared data model (`types/types.go`) and its JSON codec

Structures carry the Go struct fields in declaration order; `marshal…`
functions implement what `encoding/json` emits for them (tag names,
declaration order, `omitempty`), and `unmarshal…` functions implement
`json.Unmarshal` into them (absent or `null` fields keep the zero value,
unknown keys are ignored, the last duplicate key wins). -/

/-- Digits of a decimal numeral, accumulating the value. -/
def decDigitsAux (acc : Nat) : List Char → Option Nat
  | [] => some acc
  | c :: t => if c.isDigit then decDigitsAux (acc * 10 + (c.toNat - 48)) t else none

/-- `big.Int.SetString(s, 10)`: an optional sign, then one or more
decimal digits, consuming the whole string. -/
def parseDec (s : String) : Option Int :=
  match s.data with
  | [] => none
  | '+' :: t => if t = [] then none else (decDigitsAux 0 t).map (fun n => (n : Int))
  | '-' :: t => if t = [] then none else (decDigitsAux 0 t).map (fun n => -(n : Int))
  | t => (decDigitsAux 0 t).map (fun n => (n : Int))

/-- `types.ResourceInfo`. -/
structure ResourceInfo where
  url : String
  description : String
  mimeType : String
deriving Repr, DecidableEq

/-- `types.PaymentRequirements` (current snapshot: `amount` field). -/
structure PaymentRequirements where
  scheme : String
  network : String
  amount : String
  asset : String
  payTo : String
  maxTimeoutSeconds : Int
  extra : List (String × JVal)

/-- `types.PaymentPayload` (current snapshot: `accepted` requirements,
open `payload` map). -/
structure PaymentPayload where
  x402Version : Int
  resource : Option ResourceInfo
  accepted : PaymentRequirements
  payload : List (String × JVal)
  extensions : List (String × JVal)

/-- `types.Extension`. -/
structure Extension where
  info : List (String × JVal)
  schema : List (String × JVal)

/-- `types.PaymentRequired`. -/
structure PaymentRequired where
  x402Version : Int
  error : String
  resource : Option ResourceInfo
  accepts : List PaymentRequirements
  extensions : List (String × Extension)

/-- `types.ExactEVMSchemeAuthorization`. -/
structure ExactEVMSchemeAuthorization where
  from' : String
  to' : String
  value : String
  validAfter : Int
  validBefore : Int
  nonce : String
deriving Repr, DecidableEq

/-- `types.VerifyResponse`. -/
structure VerifyResponse where
  isValid : Bool
  invalidReason : String
  payer : String
deriving Repr, DecidableEq

/-- `types.SettleResponse`. -/
structure SettleResponse where
  success : Bool
  errorReason : String
  payer : String
  transaction : String
  network : String
deriving Repr, DecidableEq

/-- `types.VerifyRequest` (current snapshot, as built by the middleware). -/
structure VerifyRequest where
  paymentPayload : PaymentPayload
  paymentRequirements : PaymentRequirements

/-- `types.SettleRequest` (current snapshot). -/
structure SettleRequest where
  paymentPayload : PaymentPayload
  paymentRequirements : PaymentRequirements

/-- Go map read with `json.Unmarshal`'s duplicate-key rule: the last
occurrence wins. -/
def jlookup (kvs : List (String × JVal)) (k : String) : Option JVal :=
  match kvs with
  | [] => none
  | (k', v) :: t =>
      match jlookup t k with
      | some r => some r
      | none => if k' = k then some v else none

/-- Decode a `string` struct field: absent or `null` keeps `""`. -/
def getStr (kvs : List (String × JVal)) (k : String) : Option String :=
  match jlookup kvs k with
  | none => some ""
  | some .jnull => some ""
  | some (.jstr s) => some s
  | _ => none

/-- Decode an integer struct field: absent or `null` keeps `0`. -/
def getInt (kvs : List (String × JVal)) (k : String) : Option Int :=
  match jlookup kvs k with
  | none => some 0
  | some .jnull => some 0
  | some (.jint n) => some n
  | _ => none

/-- Decode a `map[string]any` struct field: absent or `null` keeps the
nil map (`[]` here). -/
def getMap (kvs : List (String × JVal)) (k : String) : Option (List (String × JVal)) :=
  match jlookup kvs k with
  | none => some []
  | some .jnull => some []
  | some (.jobj m) => some m
  | _ => none

/-- `json.Marshal` of a `ResourceInfo`. -/
def marshalResourceInfo (r : ResourceInfo) : JVal :=
  .jobj ([("url", .jstr r.url)]
    ++ (if r.description = "" then [] else [("description", .jstr r.description)])
    ++ (if r.mimeType = "" then [] else [("mimeType", .jstr r.mimeType)]))

/-- `json.Unmarshal` into a `ResourceInfo`. -/
def unmarshalResourceInfo (j : JVal) : Option ResourceInfo :=
  match j with
  | .jnull => some ⟨"", "", ""⟩
  | .jobj kvs => do
      let url ← getStr kvs "url"
      let description ← getStr kvs "description"
      let mimeType ← getStr kvs "mimeType"
      pure ⟨url, description, mimeType⟩
  | _ => none

/-- `json.Marshal` of `PaymentRequirements`. -/
def marshalPaymentRequirements (r : PaymentRequirements) : JVal :=
  .jobj ([("scheme", .jstr r.scheme), ("network", .jstr r.network),
    ("amount", .jstr r.amount), ("asset", .jstr r.asset),
    ("payTo", .jstr r.payTo), ("maxTimeoutSeconds", .jint r.maxTimeoutSeconds)]
    ++ (if r.extra.isEmpty then [] else [("extra", .jobj r.extra)]))

/-- `json.Unmarshal` into `PaymentRequirements`. -/
def unmarshalPaymentRequirements (j : JVal) : Option PaymentRequirements :=
  match j with
  | .jnull => some ⟨"", "", "", "", "", 0, []⟩
  | .jobj kvs => do
      let scheme ← getStr kvs "scheme"
      let network ← getStr kvs "network"
      let amount ← getStr kvs "amount"
      let asset ← getStr kvs "asset"
      let payTo ← getStr kvs "payTo"
      let maxTimeoutSeconds ← getInt kvs "maxTimeoutSeconds"
      let extra ← getMap kvs "extra"
      pure ⟨scheme, network, amount, asset, payTo, maxTimeoutSeconds, extra⟩
  | _ => none

/-- `json.Marshal` of a `PaymentPayload`.  (A nil `Payload` map and an
empty one are identified as `[]`, rendered `{}`.) -/
def marshalPaymentPayload (p : PaymentPayload) : JVal :=
  .jobj ([("x402Version", .jint p.x402Version)]
    ++ (match p.resource with
        | none => []
        | some r => [("resource", marshalResourceInfo r)])
    ++ [("accepted", marshalPaymentRequirements p.accepted),
        ("payload", .jobj p.payload)]
    ++ (if p.extensions.isEmpty then [] else [("extensions", .jobj p.extensions)]))

/-- `json.Unmarshal` into a `PaymentPayload`. -/
def unmarshalPaymentPayload (j : JVal) : Option PaymentPayload :=
  match j with
  | .jnull => some ⟨0, none, ⟨"", "", "", "", "", 0, []⟩, [], []⟩
  | .jobj kvs => do
      let v ← getInt kvs "x402Version"
      let resource ←
        match jlookup kvs "resource" with
        | none => some none
        | some .jnull => some none
        | some o => (unmarshalResourceInfo o).map some
      let accepted ←
        match jlookup kvs "accepted" with
        | none => some ⟨"", "", "", "", "", 0, []⟩
        | some o => unmarshalPaymentRequirements o
      let payload ← getMap kvs "payload"
      let extensions ← getMap kvs "extensions"
      pure ⟨v, resource, accepted, payload, extensions⟩
  | _ => none

/-- `json.Marshal` of an `Extension`. -/
def marshalExtension (e : Extension) : JVal :=
  .jobj [("info", .jobj e.info), ("schema", .jobj e.schema)]

/-- `json.Unmarshal` into an `Extension`. -/
def unmarshalExtension (j : JVal) : Option Extension :=
  match j with
  | .jnull => some ⟨[], []⟩
  | .jobj kvs => do
      let info ← getMap kvs "info"
      let schema ← getMap kvs "schema"
      pure ⟨info, schema⟩
  | _ => none

/-- `json.Marshal` of a `PaymentRequired` response.  (A nil `Accepts`
slice and an empty one are identified, rendered `[]`.) -/
def marshalPaymentRequired (p : PaymentRequired) : JVal :=
  .jobj ([("x402Version", .jint p.x402Version)]
    ++ (if p.error = "" then [] else [("error", .jstr p.error)])
    ++ (match p.resource with
        | none => []
        | some r => [("resource", marshalResourceInfo r)])
    ++ [("accepts", .jarr (p.accepts.map marshalPaymentRequirements))]
    ++ (if p.extensions.isEmpty then []
        else [("extensions", .jobj (p.extensions.map (fun kv => (kv.1, marshalExtension kv.2))))]))

/-- `json.Unmarshal` into a `PaymentRequired`. -/
def unmarshalPaymentRequired (j : JVal) : Option PaymentRequired :=
  match j with
  | .jnull => some ⟨0, "", none, [], []⟩
  | .jobj kvs => do
      let v ← getInt kvs "x402Version"
      let error ← getStr kvs "error"
      let resource ←
        match jlookup kvs "resource" with
        | none => some none
        | some .jnull => some none
        | some o => (unmarshalResourceInfo o).map some
      let accepts ←
        match jlookup kvs "accepts" with
        | none => some []
        | some .jnull => some []
        | some (.jarr xs) => xs.mapM unmarshalPaymentRequirements
        | some _ => none
      let extensions ←
        match jlookup kvs "extensions" with
        | none => some []
        | some .jnull => some []
        | some (.jobj m) => m.mapM (fun kv => (unmarshalExtension kv.2).map (fun e => (kv.1, e)))
        | some _ => none
      pure ⟨v, error, resource, accepts, extensions⟩
  | _ => none

/-- `json.Marshal` of a `SettleResponse` (for the `PAYMENT-RESPONSE`
header). -/
def marshalSettleResponse (s : SettleResponse) : JVal :=
  .jobj ([("success", .jbool s.success)]
    ++ (if s.errorReason = "" then [] else [("errorReason", .jstr s.errorReason)])
    ++ (if s.payer = "" then [] else [("payer", .jstr s.payer)])
    ++ [("transaction", .jstr s.transaction), ("network", .jstr s.network)])

/-- `utils.DecodePaymentHeader`: standard base64 decode, then JSON
decode into a `PaymentPayload`; no partial result.  (The Go code wraps
the codec error; the wrapped detail text is abstracted.) -/
def DecodePaymentHeader (header : String) : Except String PaymentPayload :=
  match b64Dec header.data with
  | none => .error "invalid base64"
  | some bs =>
      match utf8Dec bs with
      | none => .error "invalid JSON"
      | some cs =>
          match jparse cs with
          | none => .error "invalid JSON"
          | some j =>
              match unmarshalPaymentPayload j with
              | some p => .ok p
              | none => .error "invalid JSON"

/-- The header-encoding steps of `ResourceClient.GeneratePayment`:
`json.Marshal` the payload, then standard base64. -/
def encodePaymentHeader (p : PaymentPayload) : String :=
  String.mk (b64Enc (utf8Enc (jser (marshalPaymentPayload p))))

/-- `setPaymentRequiredHeader`'s value: base64 of the JSON encoding. -/
def encodePaymentRequiredHeader (p : PaymentRequired) : String :=
  String.mk (b64Enc (utf8Enc (jser (marshalPaymentRequired p))))

/-- The client-side reading of a `PAYMENT-REQUIRED` header: base64
decode, then JSON decode into a `PaymentRequired`. -/
def decodePaymentRequiredHeader (s : String) : Option PaymentRequired :=
  match b64Dec s.data with
  | none => none
  | some bs =>
      match utf8Dec bs with
      | none => none
      | some cs =>
          match jparse cs with
          | none => none
          | some j => unmarshalPaymentRequired j

/-- `utils.ExtractExactAuthorization`: read `payload["authorization"]`
and re-decode it as an `ExactEVMSchemeAuthorization` (Go goes through
`json.Marshal` + `json.Unmarshal`; the value is already generic JSON). -/
def unmarshalExactAuth (j : JVal) : Option ExactEVMSchemeAuthorization :=
  match j with
  | .jnull => some ⟨"", "", "", 0, 0, ""⟩
  | .jobj kvs => do
      let from' ← getStr kvs "from"
      let to' ← getStr kvs "to"
      let value ← getStr kvs "value"
      let validAfter ← getInt kvs "validAfter"
      let validBefore ← getInt kvs "validBefore"
      let nonce ← getStr kvs "nonce"
      pure ⟨from', to', value, validAfter, validBefore, nonce⟩
  | _ => none

/-- `utils.ExtractExactAuthorization`. -/
def ExtractExactAuthorization (payload : List (String × JVal)) :
    Except String ExactEVMSchemeAuthorization :=
  match jlookup payload "authorization" with
  | none => .error "missing authorization"
  | some a =>
      match unmarshalExactAuth a with
      | some auth => .ok auth
      | none => .error "failed to unmarshal authorization"

/-- `utils.ExtractVRS`: strip an optional `0x`, strict-hex decode,
require 65 bytes, normalize `v` to 27/28. -/
def ExtractVRS (signatureHex : String) : Except String (Nat × List Nat × List Nat) :=
  let stripped :=
    match signatureHex.data with
    | '0' :: 'x' :: t => if t = [] then signatureHex.data else t
    | l => l
  match hexutilDecode (String.mk ('0' :: 'x' :: stripped)) with
  | .error e => .error ("invalid signature format: " ++ e)
  | .ok sig =>
      if h : sig.length = 65 then
        let v := sig.getLast (by intro hnil; rw [hnil] at h; simp at h)
        let r := sig.take 32
        let s := (sig.drop 32).take 32
        .ok (if v < 27 then v + 27 else v, r, s)
      else
        .error ("invalid signature length: expected 65, got " ++ intStr sig.length)

/-- Split a string at every `:` (`strings.Split(s, ":")`). -/
def splitColon : List Char → List (List Char)
  | [] => [[]]
  | c :: t =>
      let rest := splitColon t
      if c = ':' then [] :: rest
      else
        match rest with
        | h :: r => (c :: h) :: r
        | [] => [[c]]

/-- `utils.GetChainID` (CAIP-2 snapshot): `namespace:reference` with a
decimal reference. -/
def GetChainID (network : String) : Except String Int :=
  let parts := splitColon network.data
  if parts.length ≠ 2 then .error "invalid CAIP-2 network string"
  else
    match parseDec (String.mk (parts.getD 1 [])) with
    | some n => .ok n
    | none => .error ("failed to parse CAIP-2 network string: " ++ network)

/-! ## 6. The facilitator verifier (`facilitator/config.go`)

The verify pipeline in `facilitator/config.go` is written against the
repository's earlier `types` snapshot (`PaymentPayload` with a `scheme`
field, `PaymentRequirements` with `maxAmountRequired`, `VerifyRequest`
carrying the raw base64 `paymentHeader`); those live in the `Legacy`
namespace.  External primitives (EIP-712 struct hashing, keccak, ECDSA
recovery, the RPC node) are oracle fields of `Env`; everything around
them is translated from the source. -/

/-- The `abi.Pack`ed call data of the two contract calls the facilitator
makes, kept structurally (the ABI encoding is fixed and injective). -/
inductive CallData where
  | balanceOf (account : List Nat)
  | transferWithAuthorization (from' to' : List Nat) (value : Int)
      (validAfter validBefore : Int) (nonce : List Nat)
      (v : Nat) (r s : List Nat)
deriving DecidableEq, Repr

/-- `ethereum.CallMsg` as the facilitator builds it. -/
structure CallMsg where
  to' : List Nat
  data : CallData
deriving DecidableEq, Repr

/-- The legacy transaction `ethtypes.NewTransaction` builds for
settlement. -/
structure LegacyTx where
  nonce : Nat
  to' : List Nat
  value : Int
  gasLimit : Nat
  gasPrice : Int
  data : CallData
deriving DecidableEq, Repr

namespace Legacy

/-- Earlier-snapshot `types.PaymentRequirements` (field
`maxAmountRequired`), as used by the verify pipeline. -/
structure PaymentRequirements where
  scheme : String
  network : String
  maxAmountRequired : String
  resource : String
  description : String
  mimeType : String
  outputSchema : List (String × JVal)
  payTo : String
  maxTimeoutSeconds : Int
  asset : String
  extra : List (String × JVal)

/-- Earlier-snapshot `types.PaymentPayload` (top-level `scheme`). -/
structure PaymentPayload where
  x402Version : Int
  scheme : String
  network : String
  payload : List (String × JVal)

/-- Earlier-snapshot `types.VerifyRequest` (raw base64 header). -/
structure VerifyRequest where
  x402Version : Int
  paymentHeader : String
  paymentRequirements : PaymentRequirements

/-- `json.Marshal` of the legacy `PaymentPayload`. -/
def marshalPaymentPayload (p : PaymentPayload) : JVal :=
  .jobj [("x402Version", .jint p.x402Version), ("scheme", .jstr p.scheme),
    ("network", .jstr p.network), ("payload", .jobj p.payload)]

/-- `json.Unmarshal` into the legacy `PaymentPayload`. -/
def unmarshalPaymentPayload (j : JVal) : Option PaymentPayload :=
  match j with
  | .jnull => some ⟨0, "", "", []⟩
  | .jobj kvs => do
      let v ← getInt kvs "x402Version"
      let scheme ← getStr kvs "scheme"
      let network ← getStr kvs "network"
      let payload ← getMap kvs "payload"
      pure ⟨v, scheme, network, payload⟩
  | _ => none

/-- `utils.DecodePaymentHeader` against the legacy payload type. -/
def DecodePaymentHeader (header : String) : Except String PaymentPayload :=
  match b64Dec header.data with
  | none => .error "invalid base64"
  | some bs =>
      match utf8Dec bs with
      | none => .error "invalid JSON"
      | some cs =>
          match jparse cs with
          | none => .error "invalid JSON"
          | some j =>
              match unmarshalPaymentPayload j with
              | some p => .ok p
              | none => .error "invalid JSON"

end Legacy

/-- Oracles for the external primitives: wall clock, EIP-712 hashing,
keccak, ECDSA recovery, and the per-network RPC node. -/
structure Env where
  now : Int
  hashDomain : ExactEVMSchemeAuthorization → Legacy.PaymentRequirements →
    Except String (List Nat)
  hashMessage : ExactEVMSchemeAuthorization → Legacy.PaymentRequirements →
    Except String (List Nat)
  keccak : List Nat → List Nat
  sigToAddr : List Nat → List Nat → Except String (List Nat)
  getClient : String → Except String Unit
  callContract : String → CallMsg → Except String (List Nat)
  pendingNonceAt : String → List Nat → Except String Nat
  suggestGasPrice : String → Except String Int
  estimateGas : String → List Nat → CallMsg → Except String Nat
  signTxHash : Int → LegacyTx → Except String String
  sendTransaction : String → LegacyTx → Except String Unit

/-- ABI `UnpackIntoInterface` of a `uint256` result: exactly 32 bytes,
big-endian. -/
def unpackUint256 (bs : List Nat) : Except String Int :=
  if bs.length = 32 then .ok ((bs.foldl (fun a b => a * 256 + b) 0 : Nat) : Int)
  else .error "length insufficient"

/-- Stage 1, `Facilitator.verifySignature`: extract and hex-decode the
65-byte signature, hash the EIP-712 typed data, recover the signer, and
compare it with `authorization.from`. -/
def verifySignature (env : Env) (auth : ExactEVMSchemeAuthorization)
    (payload : Legacy.PaymentPayload)
    (requirements : Legacy.PaymentRequirements) : Bool × String :=
  match jlookup payload.payload "signature" with
  | some (.jstr signatureHex) =>
    if signatureHex = "" then (false, "missing signature")
    else
      let stripped :=
        match signatureHex.data with
        | '0' :: 'x' :: t => if t = [] then signatureHex.data else t
        | l => l
      match hexutilDecode (String.mk ('0' :: 'x' :: stripped)) with
      | .error e => (false, "invalid signature format: " ++ e)
      | .ok signature =>
        if signature.length ≠ 65 then
          (false, "invalid signature length: expected 65, got " ++ intStr signature.length)
        else
          -- utils.BuildEIP712TypedData is a pure data construction; the
          -- two HashStruct calls and the final keccak are oracles
          match env.hashDomain auth requirements with
          | .error e => (false, "failed to hash domain: " ++ e)
          | .ok domainSeparator =>
            match env.hashMessage auth requirements with
            | .error e => (false, "failed to hash message: " ++ e)
            | .ok messageHash =>
              let hash := env.keccak (25 :: 1 :: (domainSeparator ++ messageHash))
              let v := signature.getD 64 0
              let signature :=
                if v = 27 ∨ v = 28 then signature.take 64 ++ [v - 27] else signature
              match env.sigToAddr hash signature with
              | .error e => (false, "failed to recover public key: " ++ e)
              | .ok recoveredAddr =>
                let expectedAddr := hexToAddress auth.from'
                if recoveredAddr ≠ expectedAddr then
                  (false, "signature mismatch: recovered " ++ addressHex recoveredAddr
                    ++ ", expected " ++ addressHex expectedAddr)
                else (true, "")
  | _ => (false, "missing signature")

/-- Stage 2, `Facilitator.verifyBalance`: `balanceOf(from)` on the asset
contract at the latest block must cover `authorization.value`. -/
def verifyBalance (env : Env) (auth : ExactEVMSchemeAuthorization)
    (requirements : Legacy.PaymentRequirements) : Bool × String :=
  match parseDec auth.value with
  | none => (false, "invalid payment amount format")
  | some paymentAmount =>
    match env.getClient requirements.network with
    | .error e => (false, "failed to connect to network: " ++ e)
    | .ok _ =>
      let fromAddress := hexToAddress auth.from'
      let tokenAddress := hexToAddress requirements.asset
      match env.callContract requirements.network ⟨tokenAddress, .balanceOf fromAddress⟩ with
      | .error e => (false, "failed to call balanceOf: " ++ e)
      | .ok result =>
        match unpackUint256 result with
        | .error e => (false, "failed to decode balance: " ++ e)
        | .ok balance =>
          if balance < paymentAmount then
            (false, "insufficient balance: has " ++ intStr balance
              ++ ", needs " ++ intStr paymentAmount)
          else (true, "")

/-- Stage 3, `Facilitator.verifyAmount`: `authorization.value` and
`requirements.maxAmountRequired` as unbounded integers;
`value < required` rejects. -/
def verifyAmount (auth : ExactEVMSchemeAuthorization)
    (requirements : Legacy.PaymentRequirements) : Bool × String :=
  match parseDec auth.value with
  | none => (false, "invalid payment amount format")
  | some paymentAmount =>
    match parseDec requirements.maxAmountRequired with
    | none => (false, "invalid required amount format")
    | some requiredAmount =>
      if paymentAmount < requiredAmount then
        (false, "insufficient amount: got " ++ auth.value
          ++ ", required " ++ requirements.maxAmountRequired)
      else (true, "")

/-- Stage 4, `Facilitator.verifyTimeWindow`: `now` must lie in the
inclusive window `[validAfter, validBefore]`. -/
def verifyTimeWindow (env : Env) (auth : ExactEVMSchemeAuthorization) : Bool × String :=
  if env.now < auth.validAfter then
    (false, "payment not yet valid (valid after " ++ intStr auth.validAfter ++ ")")
  else if env.now > auth.validBefore then
    (false, "payment expired (valid before " ++ intStr auth.validBefore ++ ")")
  else (true, "")

/-- Stage 5, `Facilitator.verifyParameters`: the recipient must equal
`requirements.payTo`. -/
def verifyParameters (auth : ExactEVMSchemeAuthorization)
    (requirements : Legacy.PaymentRequirements) : Bool × String :=
  if auth.to' ≠ requirements.payTo then
    (false, "recipient mismatch: got " ++ auth.to' ++ ", expected " ++ requirements.payTo)
  else (true, "")

/-- Stage 6, `Facilitator.simulateTransaction`: encode
`transferWithAuthorization` (the nonce hex-decoded and copied into a
zero-initialized 32-byte array) and dry-run it via `eth_call`. -/
def simulateTransaction (env : Env) (auth : ExactEVMSchemeAuthorization)
    (requirements : Legacy.PaymentRequirements) (signatureHex : String) : Bool × String :=
  match env.getClient requirements.network with
  | .error e => (false, "failed to connect to network: " ++ e)
  | .ok _ =>
    match ExtractVRS signatureHex with
    | .error e => (false, "failed to extract signature components: " ++ e)
    | .ok (v, r, s) =>
      let fromAddr := hexToAddress auth.from'
      let toAddr := hexToAddress auth.to'
      -- value.SetString's failure is ignored by the source; the zero
      -- big.Int is what the call is then packed with
      let value := (parseDec auth.value).getD 0
      match hexutilDecode auth.nonce with
      | .error e => (false, "invalid nonce format: " ++ e)
      | .ok nonceBytes =>
        -- copy(nonce[:], nonceBytes): shorter input is zero-padded on
        -- the right, longer input is silently truncated
        let nonce := nonceBytes.take 32 ++ List.replicate (32 - nonceBytes.length) 0
        let callData : CallData :=
          .transferWithAuthorization fromAddr toAddr value
            auth.validAfter auth.validBefore nonce v r s
        let tokenAddress := hexToAddress requirements.asset
        match env.callContract requirements.network ⟨tokenAddress, callData⟩ with
        | .error e => (false, "transaction would fail: " ++ e)
        | .ok _ => (true, "")

/-- The verifier's stage tags, in pipeline order. -/
inductive Stage where
  | signature
  | balance
  | amount
  | timeWindow
  | parameters
  | simulation
deriving DecidableEq, Repr

/-- `Facilitator.verifyExactScheme`: extract the signature and the
authorization, then run the six stages in order, short-circuiting at the
first failure. -/
def verifyExactScheme (env : Env) (payload : Legacy.PaymentPayload)
    (requirements : Legacy.PaymentRequirements) : Bool × String :=
  match jlookup payload.payload "signature" with
  | some (.jstr signatureHex) =>
    if signatureHex = "" then (false, "missing signature")
    else
      match ExtractExactAuthorization payload.payload with
      | .error e => (false, "invalid authorization: " ++ e)
      | .ok auth =>
        match verifySignature env auth payload requirements with
        | (false, reason) => (false, reason)
        | (true, _) =>
          match verifyBalance env auth requirements with
          | (false, reason) => (false, reason)
          | (true, _) =>
            match verifyAmount auth requirements with
            | (false, reason) => (false, reason)
            | (true, _) =>
              match verifyTimeWindow env auth with
              | (false, reason) => (false, reason)
              | (true, _) =>
                match verifyParameters auth requirements with
                | (false, reason) => (false, reason)
                | (true, _) =>
                  match simulateTransaction env auth requirements signatureHex with
                  | (false, reason) => (false, reason)
                  | (true, _) => (true, "")
  | _ => (false, "missing signature")

/-- `verifyExactScheme` instrumented with the list of stages entered, in
order.  Its first component is proven equal to `verifyExactScheme`. -/
def verifyExactSchemeT (env : Env) (payload : Legacy.PaymentPayload)
    (requirements : Legacy.PaymentRequirements) : (Bool × String) × List Stage :=
  match jlookup payload.payload "signature" with
  | some (.jstr signatureHex) =>
    if signatureHex = "" then ((false, "missing signature"), [])
    else
      match ExtractExactAuthorization payload.payload with
      | .error e => ((false, "invalid authorization: " ++ e), [])
      | .ok auth =>
        match verifySignature env auth payload requirements with
        | (false, reason) => ((false, reason), [.signature])
        | (true, _) =>
          match verifyBalance env auth requirements with
          | (false, reason) => ((false, reason), [.signature, .balance])
          | (true, _) =>
            match verifyAmount auth requirements with
            | (false, reason) => ((false, reason), [.signature, .balance, .amount])
            | (true, _) =>
              match verifyTimeWindow env auth with
              | (false, reason) =>
                  ((false, reason), [.signature, .balance, .amount, .timeWindow])
              | (true, _) =>
                match verifyParameters auth requirements with
                | (false, reason) =>
                    ((false, reason),
                     [.signature, .balance, .amount, .timeWindow, .parameters])
                | (true, _) =>
                  match simulateTransaction env auth requirements signatureHex with
                  | (false, reason) =>
                      ((false, reason),
                       [.signature, .balance, .amount, .timeWindow, .parameters,
                        .simulation])
                  | (true, _) =>
                      ((true, ""),
                       [.signature, .balance, .amount, .timeWindow, .parameters,
                        .simulation])
  | _ => ((false, "missing signature"), [])

/-- `Facilitator.verifyPayment`: decode the base64 header, then dispatch
on the payload's scheme (only `"exact"` is implemented). -/
def verifyPayment (env : Env) (req : Legacy.VerifyRequest) : Bool × String :=
  match Legacy.DecodePaymentHeader req.paymentHeader with
  | .error e => (false, "failed to decode payment header: " ++ e)
  | .ok paymentPayload =>
    if paymentPayload.scheme = "exact" then
      verifyExactScheme env paymentPayload req.paymentRequirements
    else (false, "unsupported scheme: " ++ paymentPayload.scheme)

/-- A `supported` entry of the facilitator configuration (scheme /
network pair; the other fields play no role in `IsSupported`). -/
structure SupportedKind where
  scheme : String
  network : String

/-- The slice of `FacilitatorConfig` the verify and settle paths read. -/
structure FacilitatorConfig where
  supported : List SupportedKind
  signerAddress : List Nat
  maxGasPrice : String

/-- `FacilitatorConfig.IsSupported`. -/
def IsSupported (config : FacilitatorConfig) (scheme network : String) : Bool :=
  config.supported.any (fun s => s.scheme == scheme && s.network == network)

/-- `Facilitator.handleVerify` (after JSON binding): early-reject an
unsupported scheme/network pair, otherwise run `verifyPayment`; the
response carries `isValid` and `invalidReason` (`payer` is never set). -/
def handleVerify (env : Env) (config : FacilitatorConfig)
    (req : Legacy.VerifyRequest) : VerifyResponse :=
  if ¬ IsSupported config req.paymentRequirements.scheme req.paymentRequirements.network then
    { isValid := false,
      invalidReason := "unsupported scheme-network: " ++ req.paymentRequirements.scheme
        ++ "-" ++ req.paymentRequirements.network,
      payer := "" }
  else
    let res := verifyPayment env req
    { isValid := res.1, invalidReason := res.2, payer := "" }

/-! ## 7. The facilitator settler (`settlePayment`,
`sendTransferWithAuthorization`)

The settle path is written against the current `types` snapshot.  The
first component of each result is the list of transactions handed to
`SendTransaction` (the broadcast log), the observable this file uses to
reason about what settlement put on the wire. -/

/-- `Facilitator.sendTransferWithAuthorization`: extract `(v, r, s)`,
require a 32-byte nonce, pack the call, read the pending nonce and the
suggested gas price, enforce the `maxGasPrice` ceiling, estimate gas,
build and sign the legacy transaction, and broadcast it. -/
def sendTransferWithAuthorization (env : Env) (config : FacilitatorConfig)
    (auth : ExactEVMSchemeAuthorization) (requirements : PaymentRequirements)
    (signatureHex : String) : List LegacyTx × Except String String :=
  match ExtractVRS signatureHex with
  | .error e => ([], .error ("failed to extract signature: " ++ e))
  | .ok (v, r, s) =>
    let fromAddr := hexToAddress auth.from'
    let toAddr := hexToAddress auth.to'
    let value := (parseDec auth.value).getD 0
    let nonceBytes := fromHex auth.nonce
    if nonceBytes.length ≠ 32 then
      ([], .error ("invalid nonce length: expected 32 bytes, got "
        ++ intStr nonceBytes.length))
    else
      let callData : CallData :=
        .transferWithAuthorization fromAddr toAddr value
          auth.validAfter auth.validBefore nonceBytes v r s
      match env.pendingNonceAt requirements.network config.signerAddress with
      | .error e => ([], .error ("failed to get nonce: " ++ e))
      | .ok nonce =>
        match env.suggestGasPrice requirements.network with
        | .error e => ([], .error ("failed to get gas price: " ++ e))
        | .ok gasPrice =>
          match parseDec config.maxGasPrice with
          | none => ([], .error ("failed to parse max gas price: " ++ config.maxGasPrice))
          | some maxGasPrice =>
            if gasPrice > maxGasPrice then
              ([], .error ("gas price too high: suggested " ++ intStr gasPrice
                ++ " wei exceeds max " ++ intStr maxGasPrice ++ " wei"))
            else
              let tokenAddress := hexToAddress requirements.asset
              match env.estimateGas requirements.network config.signerAddress
                  ⟨tokenAddress, callData⟩ with
              | .error e => ([], .error ("failed to estimate gas: " ++ e))
              | .ok gasLimit =>
                let tx : LegacyTx := ⟨nonce, tokenAddress, 0, gasLimit, gasPrice, callData⟩
                match GetChainID requirements.network with
                | .error e => ([], .error ("failed to get chain id: " ++ e))
                | .ok chainID =>
                  match env.signTxHash chainID tx with
                  | .error e => ([], .error ("failed to sign transaction: " ++ e))
                  | .ok txHash =>
                    match env.sendTransaction requirements.network tx with
                    | .error e => ([tx], .error ("failed to send transaction: " ++ e))
                    | .ok _ => ([tx], .ok txHash)

/-- `Facilitator.settleExactScheme`: extract the signature and
authorization, get the RPC client, send the transfer, and wrap the
result in a `SettleResponse`. -/
def settleExactScheme (env : Env) (config : FacilitatorConfig)
    (payload : PaymentPayload) (requirements : PaymentRequirements) :
    List LegacyTx × SettleResponse :=
  match jlookup payload.payload "signature" with
  | some (.jstr signatureHex) =>
    if signatureHex = "" then
      ([], { success := false, errorReason := "missing signature",
             payer := "", transaction := "", network := "" })
    else
      match ExtractExactAuthorization payload.payload with
      | .error e =>
          ([], { success := false, errorReason := "invalid authorization: " ++ e,
                 payer := "", transaction := "", network := "" })
      | .ok auth =>
        match env.getClient requirements.network with
        | .error e =>
            ([], { success := false,
                   errorReason := "failed to connect to network: " ++ e,
                   payer := "", transaction := "", network := "" })
        | .ok _ =>
          match sendTransferWithAuthorization env config auth requirements signatureHex with
          | (txs, .error e) =>
              (txs, { success := false,
                      errorReason := "failed to settle payment: " ++ e,
                      payer := "", transaction := "", network := "" })
          | (txs, .ok txHash) =>
              (txs, { success := true, errorReason := "",
                      payer := auth.from', transaction := txHash,
                      network := requirements.network })
  | _ =>
      ([], { success := false, errorReason := "missing signature",
             payer := "", transaction := "", network := "" })

/-- `Facilitator.settlePayment`: dispatch on `payload.accepted.scheme`. -/
def settlePayment (env : Env) (config : FacilitatorConfig)
    (payload : PaymentPayload) (requirements : PaymentRequirements) :
    List LegacyTx × SettleResponse :=
  if payload.accepted.scheme = "exact" then
    settleExactScheme env config payload requirements
  else
    ([], { success := false,
           errorReason := "unsupported scheme: " ++ payload.accepted.scheme,
           payer := "", transaction := "", network := "" })

/-! ## 8. The resource-gateway middleware (`X402Middleware`)

`filepath.Match` is modelled by `globMatch` (`*` and `?` do not cross
`/`, character classes with `^` negation and ranges, backslash escapes;
`none` is `ErrBadPattern`).  `Handler` returns the request's observable
trace: facilitator calls, the downstream-handler run, and everything
written to the *underlying* response writer — response headers and
(status, body) writes.  `ctx.JSON` renders through `ctx.Writer`, so
after the middleware has replaced `ctx.Writer` with the buffered writer
those renders land in the buffer and reach the client only via
`bufferedWriter.flush`. -/

/-- One escaped or literal character inside a `[...]` class
(`filepath.Match`'s `getEsc`). -/
def getEsc : List Char → Option (Char × List Char)
  | [] => none
  | '-' :: _ => none
  | ']' :: _ => none
  | '\\' :: c :: r => some (c, r)
  | '\\' :: [] => none
  | c :: r => some (c, r)

/-- The ranges of a `[...]` class (one or more), ending at `]`. -/
def classRanges (fuel : Nat) (s : List Char) : Option (List (Char × Char) × List Char) :=
  match fuel with
  | 0 => none
  | fuel + 1 =>
    match getEsc s with
    | none => none
    | some (lo, r) =>
      let hir :=
        match r with
        | '-' :: r2 =>
            match getEsc r2 with
            | some (hi, r3) => some (hi, r3)
            | none => none
        | _ => some (lo, r)
      match hir with
      | none => none
      | some (hi, r') =>
        match r' with
        | ']' :: r'' => some ([(lo, hi)], r'')
        | _ =>
            match classRanges fuel r' with
            | some (rest, r'') => some ((lo, hi) :: rest, r'')
            | none => none

/-- `filepath.Match`'s semantics (`some` = matched?, `none` =
`ErrBadPattern`): `*` and `?` never match `/`, classes support `^`
negation and ranges, `\\` escapes. -/
def globMatch (fuel : Nat) (p s : List Char) : Option Bool :=
  match fuel with
  | 0 => none
  | fuel + 1 =>
    match p, s with
    | [], [] => some true
    | [], _ :: _ => some false
    | '*' :: p', _ =>
        (match globMatch fuel p' s with
         | none => none
         | some true => some true
         | some false =>
             match s with
             | [] => some false
             | c :: s' =>
                 if c = '/' then some false
                 else globMatch fuel ('*' :: p') s')
    | '?' :: _, [] => some false
    | '?' :: p', c :: s' => if c = '/' then some false else globMatch fuel p' s'
    | '[' :: p', s =>
        let (negated, pc) :=
          match p' with
          | '^' :: t => (true, t)
          | _ => (false, p')
        (match classRanges pc.length pc with
         | none => none
         | some (ranges, p'') =>
             match s with
             | [] => some false
             | c :: s' =>
                 let inClass := ranges.any (fun lh => lh.1 ≤ c && c ≤ lh.2)
                 if (if negated then !inClass else inClass) then globMatch fuel p'' s'
                 else some false)
    | '\\' :: [], _ => none
    | '\\' :: c :: p', s =>
        (match s with
         | [] => some false
         | c2 :: s' => if c2 = c then globMatch fuel p' s' else some false)
    | _ :: _, [] => some false
    | c :: p', c2 :: s' => if c2 = c then globMatch fuel p' s' else some false

/-- `filepath.Match` on strings (enough fuel for full exploration). -/
def filepathMatch (pattern name : String) : Option Bool :=
  globMatch (pattern.length + name.length + 1) pattern.data name.data

/-- `middleware.MiddlewareConfig`. -/
structure MiddlewareConfig where
  facilitatorURL : String
  defaultRequirements : PaymentRequirements
  protectedPaths : List String
  routeRequirements : List (String × PaymentRequirements)
  routeResources : List (String × ResourceInfo)
  paymentHeaderName : String
  maxBufferSize : Int
  discoveryEnabled : Bool
  ownershipProofs : List String
  instructions : String

/-- `MiddlewareConfig.GetPaymentHeaderName`. -/
def GetPaymentHeaderName (c : MiddlewareConfig) : String :=
  if c.paymentHeaderName = "" then "PAYMENT-SIGNATURE" else c.paymentHeaderName

/-- `X402Middleware.isProtectedPath`: any pattern matches (pattern
errors are skipped). -/
def isProtectedPath (c : MiddlewareConfig) (path : String) : Bool :=
  c.protectedPaths.any (fun pattern => (filepathMatch pattern path).getD false)

/-- `X402Middleware.getRequirements`: exact route key, else first
matching pattern key, else the default requirements. -/
def getRequirements (c : MiddlewareConfig) (path : String) : PaymentRequirements :=
  match c.routeRequirements.find? (fun kv => kv.1 == path) with
  | some kv => kv.2
  | none =>
    match c.routeRequirements.find? (fun kv => (filepathMatch kv.1 path).getD false) with
    | some kv => kv.2
    | none => c.defaultRequirements

/-- `middleware.bufferedWriter`. -/
structure BufferedWriter where
  body : List Nat
  status : Int
  header : List (String × String)
  maxSize : Int
  overflow : Bool
deriving Repr

/-- `newBufferedWriter` (status defaults to 200). -/
def newBufferedWriter (maxSize : Int) : BufferedWriter :=
  { body := [], status := 200, header := [], maxSize := maxSize, overflow := false }

/-- `bufferedWriter.Write`: a write that would push the buffer past a
positive `maxSize` sets the overflow flag, appends nothing, and returns
an error to the caller. -/
def bwWrite (w : BufferedWriter) (data : List Nat) : BufferedWriter × Except String Nat :=
  if w.maxSize > 0 ∧ (w.body.length : Int) + data.length > w.maxSize then
    ({ w with overflow := true },
     .error ("response exceeds max buffer size (" ++ intStr w.maxSize ++ " bytes)"))
  else
    ({ w with body := w.body ++ data }, .ok data.length)

/-- `bufferedWriter.WriteHeader`: records the status into the buffer. -/
def bwWriteHeader (w : BufferedWriter) (status : Int) : BufferedWriter :=
  { w with status := status }

/-- `Header().Set` on an association-list header map. -/
def setHeaderList (h : List (String × String)) (k v : String) : List (String × String) :=
  h.filter (fun kv => !(kv.1 == k)) ++ [(k, v)]

/-- `Header().Set` through the buffered writer. -/
def bwSetHeader (w : BufferedWriter) (k v : String) : BufferedWriter :=
  { w with header := setHeaderList w.header k v }

/-- What the downstream handler does with its response writer: headers
it sets, an optional `WriteHeader` status, and its body writes. -/
structure HandlerSpec where
  statusSet : Option Int
  headers : List (String × String)
  chunks : List (List Nat)

/-- Feed the handler's body writes through `bufferedWriter.Write`,
collecting each write's result (the error a crossing write returns). -/
def bwWriteAll (w : BufferedWriter) : List (List Nat) → BufferedWriter × List (Except String Nat)
  | [] => (w, [])
  | d :: ds =>
      let (w1, res) := bwWrite w d
      let (w2, results) := bwWriteAll w1 ds
      (w2, res :: results)

/-- Run the downstream handler against the buffered writer. -/
def runDownstream (w : BufferedWriter) (h : HandlerSpec) :
    BufferedWriter × List (Except String Nat) :=
  let w1 := h.headers.foldl (fun acc kv => bwSetHeader acc kv.1 kv.2) w
  let w2 :=
    match h.statusSet with
    | some st => bwWriteHeader w1 st
    | none => w1
  bwWriteAll w2 h.chunks

/-- An observable event of one middleware request: writes to the
underlying response writer, and the external calls made. -/
inductive Ev where
  | setHeader (k v : String)
  | wrote (status : Int) (body : List Nat)
  | verifyCalled (result : Except String VerifyResponse)
  | handlerRan
  | settleCalled (result : Except String SettleResponse)

/-- The facilitator HTTP client, as an oracle (`client.Verify`,
`client.Settle`; `Except.error` is a transport failure). -/
structure FacEnv where
  verify : VerifyRequest → Except String VerifyResponse
  settle : SettleRequest → Except String SettleResponse

/-- UTF-8 bytes of a rendered JSON value (what `ctx.JSON` writes). -/
def jsonBytes (j : JVal) : List Nat := utf8Enc (jser j)

/-- The body `ctx.JSON(code, gin.H{"error": msg})` renders. -/
def errBody (msg : String) : List Nat := jsonBytes (.jobj [("error", .jstr msg)])

/-- `bufferedWriter.flush`: copy the buffered headers to the underlying
writer, then write the buffered status and body. -/
def flushEvents (w : BufferedWriter) : List Ev :=
  (w.header.map (fun kv => Ev.setHeader kv.1 kv.2)) ++ [.wrote w.status w.body]

/-- `X402Middleware.serveDiscovery`'s body (`gin.H` maps marshal with
sorted keys). -/
def serveDiscoveryBody (c : MiddlewareConfig) : JVal :=
  .jobj ((if c.instructions = "" then [] else [("instructions", .jstr c.instructions)])
    ++ (if c.ownershipProofs.isEmpty then []
        else [("ownershipProofs", .jarr (c.ownershipProofs.map JVal.jstr))])
    ++ [("resources", .jarr (c.protectedPaths.map JVal.jstr)), ("version", .jint 1)])

/-- The `PaymentRequired` challenge `X402Middleware.sendPaymentRequired`
builds: resource URL = request path (description and MIME type from the
route's registered resource, when one exists), `accepts` = the selected
requirements, error = "<header name> header is required". -/
def paymentRequiredResponse (c : MiddlewareConfig) (path : String) : PaymentRequired :=
  let resource : ResourceInfo :=
    match c.routeResources.find? (fun kv => kv.1 == path) with
    | some kv => { url := path, description := kv.2.description, mimeType := kv.2.mimeType }
    | none => { url := path, description := "", mimeType := "" }
  { x402Version := 2, error := GetPaymentHeaderName c ++ " header is required",
    resource := some resource, accepts := [getRequirements c path], extensions := [] }

/-- `X402Middleware.sendPaymentRequired`: build the `PaymentRequired`
challenge, set the `PAYMENT-REQUIRED` header, and render the 402 body —
both still on the underlying writer. -/
def sendPaymentRequired (c : MiddlewareConfig) (path : String) : List Ev :=
  let response := paymentRequiredResponse c path
  [.setHeader "PAYMENT-REQUIRED" (encodePaymentRequiredHeader response),
   .wrote 402 (jsonBytes (marshalPaymentRequired response))]

/-- `X402Middleware.Handler`, as the observable trace of one request.
After the middleware replaces `ctx.Writer` with the buffered writer,
`ctx.JSON` renders (here: `bwWrite` on the buffer) are never flushed on
the error paths, so they produce no `.wrote` event. -/
def Handler (c : MiddlewareConfig) (fac : FacEnv) (path : String)
    (paymentHeader : String) (h : HandlerSpec) : List Ev :=
  if c.discoveryEnabled ∧ path = "/.well-known/x402" then
    [.wrote 200 (jsonBytes (serveDiscoveryBody c))]
  else if ¬ isProtectedPath c path then
    -- pass-through: the downstream handler writes to the underlying writer
    .handlerRan :: (h.headers.map (fun kv => Ev.setHeader kv.1 kv.2))
      ++ [.wrote (h.statusSet.getD 200) (h.chunks.foldl (· ++ ·) [])]
  else if paymentHeader = "" then
    sendPaymentRequired c path
  else
    match DecodePaymentHeader paymentHeader with
    | .error e => [.wrote 400 (errBody ("Invalid payment header: " ++ e))]
    | .ok paymentPayload =>
      let requirements := getRequirements c path
      let verifyReq : VerifyRequest :=
        { paymentPayload := paymentPayload, paymentRequirements := requirements }
      match fac.verify verifyReq with
      | .error e =>
          [.verifyCalled (.error e),
           .wrote 502 (errBody ("Failed to verify payment: " ++ e))]
      | .ok verifyResp =>
        if ¬ verifyResp.isValid then
          let response : PaymentRequired :=
            { x402Version := 2, error := verifyResp.invalidReason,
              resource := none, accepts := [requirements], extensions := [] }
          [.verifyCalled (.ok verifyResp),
           .setHeader "PAYMENT-REQUIRED" (encodePaymentRequiredHeader response),
           .wrote 402 (jsonBytes (marshalPaymentRequired response))]
        else
          -- ctx.Set("x402_payment_…") context values are not client-visible
          let buffered := newBufferedWriter c.maxBufferSize
          let (bw1, _writeResults) := runDownstream buffered h
          if bw1.overflow then
            -- ctx.JSON(500, …) renders into the buffered writer, which
            -- is never flushed: nothing reaches the underlying writer
            let _dropped := bwWrite (bwWriteHeader bw1 500)
              (errBody "Response too large to process payment")
            [.verifyCalled (.ok verifyResp), .handlerRan]
          else if 200 ≤ bw1.status ∧ bw1.status < 300 then
            let settleReq : SettleRequest :=
              { paymentPayload := paymentPayload, paymentRequirements := requirements }
            match fac.settle settleReq with
            | .error e =>
                let _dropped := bwWrite (bwWriteHeader bw1 502)
                  (errBody ("Failed to settle payment: " ++ e))
                [.verifyCalled (.ok verifyResp), .handlerRan, .settleCalled (.error e)]
            | .ok settleResp =>
              if ¬ settleResp.success then
                let _dropped := bwWrite (bwWriteHeader bw1 402)
                  (errBody ("Payment settlement failed: " ++ settleResp.errorReason))
                [.verifyCalled (.ok verifyResp), .handlerRan,
                 .settleCalled (.ok settleResp)]
              else
                -- ctx.Set("x402_settlement_…"), then the PAYMENT-RESPONSE
                -- header lands in the buffered header map, then flush
                let bw2 := bwSetHeader bw1 "PAYMENT-RESPONSE"
                  (String.mk (b64Enc (utf8Enc (jser (marshalSettleResponse settleResp)))))
                [.verifyCalled (.ok verifyResp), .handlerRan,
                 .settleCalled (.ok settleResp)] ++ flushEvents bw2
          else
            [.verifyCalled (.ok verifyResp), .handlerRan] ++ flushEvents bw1

/-- The (status, body) pairs written to the underlying response writer
in a trace. -/
def underlyingWrites (tr : List Ev) : List (Int × List Nat) :=
  tr.filterMap fun e =>
    match e with
    | .wrote st b => some (st, b)
    | _ => none

/-- Count of facilitator settle calls that returned `success = true`. -/
def settleSuccesses (tr : List Ev) : Nat :=
  tr.countP fun e =>
    match e with
    | .settleCalled (.ok r) => r.success
    | _ => false

/-- Count of all facilitator settle calls. -/
def settleCalls (tr : List Ev) : Nat :=
  tr.countP fun e =>
    match e with
    | .settleCalled _ => true
    | _ => false

/-- `true` iff the input cannot extend a decimal numeral to its left. -/
def noDigitHead : List Char → Bool
  | [] => true
  | c :: _ => !c.isDigit

/-- The accumulated decimal value of a digit-character run. -/
def digitsVal (acc : Nat) (l : List Char) : Nat :=
  l.foldl (fun a c => a * 10 + (c.toNat - 48)) acc

/-- The settlement ordering a trace must satisfy: every write of a 2xx
status to the underlying writer is preceded by exactly one facilitator
settle call, a successful one.  `succ`/`calls` count the successful and
the total settle calls seen so far. -/
def writesAfterOneSettle (succ calls : Nat) : List Ev → Bool
  | [] => true
  | .wrote st _ :: t =>
      (if 200 ≤ st ∧ st < 300 then succ == 1 && calls == 1 else true)
        && writesAfterOneSettle succ calls t
  | .settleCalled (.ok r) :: t =>
      writesAfterOneSettle (if r.success then succ + 1 else succ) (calls + 1) t
  | .settleCalled (.error _) :: t => writesAfterOneSettle succ (calls + 1) t
  | .setHeader _ _ :: t => writesAfterOneSettle succ calls t
  | .verifyCalled _ :: t => writesAfterOneSettle succ calls t
  | .handlerRan :: t => writesAfterOneSettle succ calls t

/-! ### Concrete fixtures

Closed instances of the oracle environment, the facilitator and
middleware configurations, and payloads, used to instantiate the
theorems at concrete inputs. -/

/-- A 65-byte signature in hex: `r` = 32 bytes `0x11`, `s` = 32 bytes
`0x22`, `v` = `0x1b` (27). -/
def sigHexW : String :=
  "0x111111111111111111111111111111111111111111111111111111111111111122222222222222222222222222222222222222222222222222222222222222221b"

/-- A 32-byte nonce in hex. -/
def nonce32W : String :=
  "0xaaaaaaaaaaaaaaaaaaaaaaaaaaaaaaaaaaaaaaaaaaaaaaaaaaaaaaaaaaaaaaaa"

/-- A concrete oracle environment: the clock reads 5, recovery returns
the address `0x…01`, `balanceOf` reports 255, simulation and broadcast
succeed, the pending account nonce is 0, the suggested gas price 1. -/
def stubEnv : Env where
  now := 5
  hashDomain := fun _ _ => .ok []
  hashMessage := fun _ _ => .ok []
  keccak := fun _ => []
  sigToAddr := fun _ _ => .ok (List.replicate 19 0 ++ [1])
  getClient := fun _ => .ok ()
  callContract := fun _ msg =>
    match msg.data with
    | .balanceOf _ => .ok (List.replicate 31 0 ++ [255])
    | .transferWithAuthorization _ _ _ _ _ _ _ _ _ => .ok []
  pendingNonceAt := fun _ _ => .ok 0
  suggestGasPrice := fun _ => .ok 1
  estimateGas := fun _ _ _ => .ok 21000
  signTxHash := fun _ _ => .ok "0xsignedtx"
  sendTransaction := fun _ _ => .ok ()

/-- `stubEnv` with every hashing/recovery oracle replaced: only the
fields the settlement path reads are kept. -/
def stubEnvB : Env :=
  { stubEnv with
    hashDomain := fun _ _ => .error "no hashing"
    hashMessage := fun _ _ => .error "no hashing"
    keccak := fun _ => [0]
    sigToAddr := fun _ _ => .error "no recovery" }

/-- An EIP-3009 authorization whose `from` matches `stubEnv`'s recovered
address and whose nonce hex-decodes to a single byte. -/
def authMapW : List (String × JVal) :=
  [("from", .jstr "0x0000000000000000000000000000000000000001"),
   ("to", .jstr "0x0000000000000000000000000000000000000002"),
   ("value", .jstr "1"),
   ("validAfter", .jint 0),
   ("validBefore", .jint 10),
   ("nonce", .jstr "0x01")]

/-- The `payload` map carrying `authMapW` and the signature. -/
def payloadMapW : List (String × JVal) :=
  [("signature", .jstr sigHexW), ("authorization", .jobj authMapW)]

/-- `authMapW` as the decoded authorization record. -/
def c10Auth : ExactEVMSchemeAuthorization :=
  { from' := "0x0000000000000000000000000000000000000001",
    to' := "0x0000000000000000000000000000000000000002",
    value := "1", validAfter := 0, validBefore := 10, nonce := "0x01" }

/-- The legacy payload the verifier sees (scheme `exact`). -/
def c10Payload : Legacy.PaymentPayload :=
  { x402Version := 1, scheme := "exact", network := "eip155:1", payload := payloadMapW }

/-- Legacy requirements matching `authMapW` (payTo = authorization.to,
required amount 1). -/
def c10Reqs : Legacy.PaymentRequirements :=
  { scheme := "exact", network := "eip155:1", maxAmountRequired := "1",
    resource := "", description := "", mimeType := "", outputSchema := [],
    payTo := "0x0000000000000000000000000000000000000002", maxTimeoutSeconds := 60,
    asset := "0x0000000000000000000000000000000000000003", extra := [] }

/-- Current-snapshot requirements with the same fields. -/
def curReqsW : PaymentRequirements :=
  { scheme := "exact", network := "eip155:1", amount := "1",
    asset := "0x0000000000000000000000000000000000000003",
    payTo := "0x0000000000000000000000000000000000000002",
    maxTimeoutSeconds := 60, extra := [] }

/-- The same payment as a current-snapshot payload (for the settler). -/
def c10Cur : PaymentPayload :=
  { x402Version := 1, resource := none, accepted := curReqsW,
    payload := payloadMapW, extensions := [] }

/-- An authorization whose `from` is the zero address — different from
every address `stubEnv`'s recovery oracle can return — with a full
32-byte nonce. -/
def c3Map : List (String × JVal) :=
  [("signature", .jstr sigHexW),
   ("authorization", .jobj
     [("from", .jstr "0x0000000000000000000000000000000000000000"),
      ("to", .jstr "0x0000000000000000000000000000000000000002"),
      ("value", .jstr "1"),
      ("validAfter", .jint 0),
      ("validBefore", .jint 10),
      ("nonce", .jstr nonce32W)])]

/-- `c3Map` wrapped as a current-snapshot payload (scheme `exact`). -/
def c3Cur : PaymentPayload :=
  { x402Version := 1, resource := none, accepted := curReqsW,
    payload := c3Map, extensions := [] }

/-- A facilitator configuration supporting `exact` on `eip155:1`. -/
def cfgW : FacilitatorConfig :=
  { supported := [{ scheme := "exact", network := "eip155:1" }],
    signerAddress := List.replicate 20 9, maxGasPrice := "100" }

/-- The verifier's base64 request header for `c10Payload`. -/
def legacyHdrW : String :=
  String.mk (b64Enc (utf8Enc (jser (Legacy.marshalPaymentPayload c10Payload))))

/-- A complete legacy verify request around `c10Payload`. -/
def c2Req : Legacy.VerifyRequest :=
  { x402Version := 1, paymentHeader := legacyHdrW, paymentRequirements := c10Reqs }

/-- A middleware configuration protecting `/api/data`, discovery off. -/
def mwcW : MiddlewareConfig :=
  { facilitatorURL := "http://localhost:8402",
    defaultRequirements := curReqsW,
    protectedPaths := ["/api/data"],
    routeRequirements := [], routeResources := [],
    paymentHeaderName := "", maxBufferSize := 1024,
    discoveryEnabled := false, ownershipProofs := [], instructions := "" }

/-- `mwcW` with a one-byte response-buffer ceiling. -/
def mwcSmall : MiddlewareConfig := { mwcW with maxBufferSize := 1 }

/-- A facilitator client whose transport is down. -/
def facW : FacEnv := ⟨fun _ => .error "connection refused", fun _ => .error "connection refused"⟩

/-- The verify response of a valid payment (as the facilitator builds
it: `payer` empty). -/
def vrOk : VerifyResponse := { isValid := true, invalidReason := "", payer := "" }

/-- A failed settlement response. -/
def srFail : SettleResponse :=
  { success := false, errorReason := "gas price too high: suggested 7 wei exceeds max 5 wei",
    payer := "", transaction := "", network := "" }

/-- A facilitator client that verifies every payment and fails every
settlement. -/
def facOkFail : FacEnv := ⟨fun _ => .ok vrOk, fun _ => .ok srFail⟩

/-- A downstream handler writing a two-byte 200 body. -/
def hsW : HandlerSpec := { statusSet := none, headers := [], chunks := [[104, 105]] }

/-- A minimal current-snapshot payload for the middleware fixtures. -/
def ppW : PaymentPayload :=
  { x402Version := 1, resource := none, accepted := curReqsW, payload := [], extensions := [] }

/-- `ppW` encoded as a payment header. -/
def hdrW : String := encodePaymentHeader ppW

/-- The amount-stage fixture: value 500000 against required 1000000. -/
def c6Auth : ExactEVMSchemeAuthorization :=
  { from' := "", to' := "", value := "500000", validAfter := 0, validBefore := 0, nonce := "" }

/-- Legacy requirements demanding 1000000. -/
def c6Reqs : Legacy.PaymentRequirements :=
  { scheme := "exact", network := "", maxAmountRequired := "1000000",
    resource := "", description := "", mimeType := "", outputSchema := [],
    payTo := "", maxTimeoutSeconds := 0, asset := "", extra := [] }

/-- A time-window fixture already expired at `stubEnv`'s clock (5). -/
def c7Auth : ExactEVMSchemeAuthorization :=
  { from' := "", to' := "", value := "", validAfter := 0, validBefore := 4, nonce := "" }

/-! ## 9. The JSON codec round-trip -/

theorem digitCh_isDigit {d : Nat} (h : d < 10) : (digitCh d).isDigit = true := by
  interval_cases d <;> decide

theorem digitCh_toNat {d : Nat} (h : d < 10) : (digitCh d).toNat - 48 = d := by
  interval_cases d <;> decide

theorem isDigit_toNat {c : Char} (h : c.isDigit = true) : 48 ≤ c.toNat ∧ c.toNat ≤ 57 := by
  simp [Char.isDigit] at h
  exact ⟨h.1, h.2⟩

theorem natChars_ne_nil (n : Nat) : natChars n ≠ [] := by
  rw [natChars]
  split <;> simp

theorem natChars_digits (n : Nat) : ∀ c ∈ natChars n, c.isDigit = true := by
  induction n using Nat.strong_induction_on with
  | _ n ih =>
    rw [natChars]
    split
    · intro c hc
      rw [List.mem_singleton] at hc
      subst hc
      exact digitCh_isDigit (by omega)
    · intro c hc
      rw [List.mem_append] at hc
      rcases hc with hc | hc
      · exact ih (n / 10) (Nat.div_lt_self (by omega) (by omega)) c hc
      · rw [List.mem_singleton] at hc
        subst hc
        exact digitCh_isDigit (Nat.mod_lt _ (by omega))

theorem digitsVal_natChars (n : Nat) : ∀ acc, digitsVal acc (natChars n) = acc * 10 ^ (natChars n).length + n := by
  induction n using Nat.strong_induction_on with
  | _ n ih =>
    intro acc
    rw [natChars]
    split
    · rename_i h
      simp [digitsVal, digitCh_toNat h]
    · rename_i h
      have ihn := ih (n / 10) (Nat.div_lt_self (by omega) (by omega))
      simp only [digitsVal, List.foldl_append, List.foldl_cons, List.foldl_nil,
        List.length_append, List.length_cons, List.length_nil]
      have h1 : (natChars (n / 10)).foldl (fun a c => a * 10 + (c.toNat - 48)) acc
          = acc * 10 ^ (natChars (n / 10)).length + n / 10 := ihn acc
      rw [h1, digitCh_toNat (Nat.mod_lt _ (by omega))]
      have hmod : n / 10 * 10 + n % 10 = n := by omega
      have hre : (acc * 10 ^ (natChars (n / 10)).length + n / 10) * 10 + n % 10
          = acc * (10 ^ (natChars (n / 10)).length * 10) + (n / 10 * 10 + n % 10) := by ring
      rw [hre, hmod, ← pow_succ]

theorem digitsVal_natChars_zero (n : Nat) : digitsVal 0 (natChars n) = n := by
  rw [digitsVal_natChars]
  simp

theorem readDigits_run {ds : List Char} (hds : ∀ c ∈ ds, c.isDigit = true) :
    ∀ {rest : List Char}, noDigitHead rest = true →
    ∀ acc, readDigits acc (ds ++ rest) = (digitsVal acc ds, rest) := by
  induction ds with
  | nil =>
      intro rest hrest acc
      cases rest with
      | nil => simp [readDigits, digitsVal]
      | cons c t =>
          simp only [noDigitHead, Bool.not_eq_true'] at hrest
          simp [readDigits, hrest, digitsVal]
  | cons c t ih =>
      intro rest hrest acc
      have hc : c.isDigit = true := hds c (by simp)
      simp only [List.cons_append, readDigits, hc, if_true, List.append_eq]
      rw [ih (fun x hx => hds x (by simp [hx])) hrest]
      simp [digitsVal]

theorem readDigits_natChars (n : Nat) {rest : List Char} (hrest : noDigitHead rest = true) :
    readDigits 0 (natChars n ++ rest) = (n, rest) := by
  rw [readDigits_run (natChars_digits n) hrest 0, digitsVal_natChars_zero]

theorem natChars_cons (n : Nat) : ∃ c t, natChars n = c :: t ∧ c.isDigit = true := by
  cases h : natChars n with
  | nil => exact absurd h (natChars_ne_nil n)
  | cons c t => exact ⟨c, t, rfl, natChars_digits n c (h ▸ List.mem_cons_self ..)⟩

theorem hexVal_hexCh {d : Nat} (h : d < 16) : hexVal (hexCh d) = some d := by
  interval_cases d <;> decide

theorem pStr_escC (c : Char) (rest : List Char) :
    pStr (escC c ++ rest) = (pStr rest).map (fun p => (c :: p.1, p.2)) := by
  rw [escC]
  by_cases h1 : c = '"'
  · subst h1
    simp only [if_pos rfl, List.cons_append, List.nil_append, pStr, unesc]
    cases hrest : pStr rest <;> simp [hrest]
  rw [if_neg h1]
  by_cases h2 : c = '\\'
  · subst h2
    simp only [if_pos rfl, List.cons_append, List.nil_append, pStr, unesc]
    cases hrest : pStr rest <;> simp [hrest]
  rw [if_neg h2]
  by_cases h3 : c = '\n'
  · subst h3
    simp only [if_pos rfl, List.cons_append, List.nil_append, pStr, unesc]
    cases hrest : pStr rest <;> simp [hrest]
  rw [if_neg h3]
  by_cases h4 : c = '\r'
  · subst h4
    simp only [if_pos rfl, List.cons_append, List.nil_append, pStr, unesc]
    cases hrest : pStr rest <;> simp [hrest]
  rw [if_neg h4]
  by_cases h5 : c = '\t'
  · subst h5
    simp only [if_pos rfl, List.cons_append, List.nil_append, pStr, unesc]
    cases hrest : pStr rest <;> simp [hrest]
  rw [if_neg h5]
  by_cases h6 : c.toNat < 32 ∨ c = '<' ∨ c = '>' ∨ c = '&' ∨ c.toNat = 8232 ∨ c.toNat = 8233
  · rw [if_pos h6]
    have hv : c.toNat < 65536 := by
      rcases h6 with h | h | h | h | h | h
      · omega
      · subst h; decide
      · subst h; decide
      · subst h; decide
      · omega
      · omega
    have h16 : ∀ k : Nat, k % 16 < 16 := fun k => Nat.mod_lt _ (by omega)
    simp only [List.cons_append, pStr,
      hexVal_hexCh (h16 (c.toNat / 4096)), hexVal_hexCh (h16 (c.toNat / 256)),
      hexVal_hexCh (h16 (c.toNat / 16)), hexVal_hexCh (h16 c.toNat)]
    have harith : ((c.toNat / 4096 % 16 * 16 + c.toNat / 256 % 16) * 16
        + c.toNat / 16 % 16) * 16 + c.toNat % 16 = c.toNat := by omega
    rw [harith, Char.ofNat_toNat]
    cases hrest : pStr rest <;> simp [hrest]
  · rw [if_neg h6]
    simp only [List.cons_append, List.nil_append]
    rw [pStr.eq_def]
    split
    · rename_i heq
      rw [List.cons_eq_cons] at heq
      exact absurd heq.1 h1
    · rename_i heq
      rw [List.cons_eq_cons] at heq
      exact absurd heq.1 h2
    · rename_i heq
      rw [List.cons_eq_cons] at heq
      exact absurd heq.1 h2
    · rename_i c' r' heq
      rw [List.cons_eq_cons] at heq
      obtain ⟨rfl, rfl⟩ := heq
      rw [if_neg h2]
      cases hrest : pStr rest <;> simp [hrest]
    · rename_i heq
      exact absurd heq (by simp)

theorem pStr_escBody (l : List Char) :
    ∀ rest, pStr (escBody l ++ '"' :: rest) = some (l, rest) := by
  induction l with
  | nil => intro rest; simp [escBody, pStr]
  | cons c t ih =>
      intro rest
      rw [escBody, List.append_assoc, pStr_escC, ih rest]
      simp

theorem digit_ne {c : Char} (h : c.isDigit = true) {d : Char} (hd : d.isDigit = false) :
    c ≠ d := by
  intro e
  subst e
  rw [h] at hd
  cases hd

theorem digit_ne_starts {c : Char} (h : c.isDigit = true) :
    c ≠ 'n' ∧ c ≠ 't' ∧ c ≠ 'f' ∧ c ≠ '"' ∧ c ≠ '[' ∧ c ≠ '{' ∧ c ≠ '-' :=
  ⟨digit_ne h (by decide), digit_ne h (by decide), digit_ne h (by decide),
   digit_ne h (by decide), digit_ne h (by decide), digit_ne h (by decide),
   digit_ne h (by decide)⟩

theorem jser_head (j : JVal) : ∃ c t, jser j = c :: t ∧ c ≠ ']' ∧ c ≠ '}' := by
  cases j with
  | jnull => exact ⟨'n', ['u', 'l', 'l'], by simp [jser], by decide, by decide⟩
  | jbool b =>
      cases b with
      | true => exact ⟨'t', ['r', 'u', 'e'], by simp [jser], by decide, by decide⟩
      | false => exact ⟨'f', ['a', 'l', 's', 'e'], by simp [jser], by decide, by decide⟩
  | jint n =>
      by_cases hn : n < 0
      · exact ⟨'-', natChars n.natAbs, by simp [jser, intChars, hn], by decide, by decide⟩
      · obtain ⟨c, t, hct, hc⟩ := natChars_cons n.natAbs
        exact ⟨c, t, by simp [jser, intChars, hn, hct],
          digit_ne hc (by decide), digit_ne hc (by decide)⟩
  | jstr s => exact ⟨'"', escBody s.data ++ ['"'], by simp [jser], by decide, by decide⟩
  | jarr xs => exact ⟨'[', jserArr xs ++ [']'], by simp [jser], by decide, by decide⟩
  | jobj kvs => exact ⟨'{', jserObj kvs ++ ['}'], by simp [jser], by decide, by decide⟩

theorem jser_len_pos (j : JVal) : 1 ≤ (jser j).length := by
  obtain ⟨c, t, h, -, -⟩ := jser_head j
  simp [h]

theorem pJ_int (n : Int) (f : Nat) (rest : List Char) (hrest : noDigitHead rest = true) :
    pJ (f + 1) (intChars n ++ rest) = some (.jint n, rest) := by
  by_cases hn : n < 0
  · obtain ⟨c, t, hct, hc⟩ := natChars_cons n.natAbs
    have harg : intChars n ++ rest = '-' :: (c :: (t ++ rest)) := by
      simp [intChars, hn, hct]
    rw [harg]
    have hread : readDigits 0 (c :: (t ++ rest)) = (n.natAbs, rest) := by
      have : c :: (t ++ rest) = natChars n.natAbs ++ rest := by rw [hct]; simp
      rw [this]
      exact readDigits_natChars n.natAbs hrest
    have hneg : (-(|n| : Int)) = n := by rw [abs_of_neg hn]; ring
    simp [pJ, hc, hread, hneg]
  · obtain ⟨c, t, hct, hc⟩ := natChars_cons n.natAbs
    obtain ⟨h1, h2, h3, h4, h5, h6, h7⟩ := digit_ne_starts hc
    have harg : intChars n ++ rest = c :: (t ++ rest) := by
      simp [intChars, hn, hct]
    rw [harg]
    have hread : readDigits 0 (c :: (t ++ rest)) = (n.natAbs, rest) := by
      have : c :: (t ++ rest) = natChars n.natAbs ++ rest := by rw [hct]; simp
      rw [this]
      exact readDigits_natChars n.natAbs hrest
    have hpos : ((|n| : Int)) = n := abs_of_nonneg (by omega)
    simp [pJ, h1, h2, h3, h4, h5, h6, h7, hc, hread, hpos]

theorem strMk_data (s : String) : String.mk s.data = s := rfl

theorem jserArr_cons (x : JVal) (xs : List JVal) :
    ∃ u, jserArr (x :: xs) = jser x ++ u := by
  cases xs with
  | nil => exact ⟨[], by simp [jserArr]⟩
  | cons y ys => exact ⟨',' :: jserArr (y :: ys), by simp [jserArr]⟩

theorem jserObj_cons (k : String) (v : JVal) (kvs : List (String × JVal)) :
    ∃ u, jserObj ((k, v) :: kvs) = '"' :: u := by
  cases kvs with
  | nil => exact ⟨escBody k.data ++ '"' :: ':' :: jser v, by simp [jserObj]⟩
  | cons kv2 kvs2 =>
      obtain ⟨k2, v2⟩ := kv2
      exact ⟨escBody k.data ++ '"' :: ':' :: (jser v ++ ',' :: jserObj ((k2, v2) :: kvs2)),
        by simp [jserObj]⟩

theorem pJ_arr_step (f : Nat) (c : Char) (t : List Char) (hc : c ≠ ']') :
    pJ (f + 1) ('[' :: (c :: t)) =
      match pL f (c :: t) with
      | some (xs, rest) => some (.jarr xs, rest)
      | none => none := by
  simp [pJ, hc]

theorem pJ_obj_step (f : Nat) (c : Char) (t : List Char) (hc : c ≠ '}') :
    pJ (f + 1) ('{' :: (c :: t)) =
      match pO f (c :: t) with
      | some (kvs, rest) => some (.jobj kvs, rest)
      | none => none := by
  simp [pJ, hc]

theorem pL_step (f : Nat) (s : List Char) :
    pL (f + 1) s =
      match pJ f s with
      | some (x, r) =>
          match r with
          | ',' :: r2 =>
              (match pL f r2 with
               | some (xs, rest) => some (x :: xs, rest)
               | none => none)
          | ']' :: r2 => some ([x], r2)
          | _ => none
      | none => none := rfl

theorem pO_step (f : Nat) (r : List Char) :
    pO (f + 1) ('"' :: r) =
      match pStr r with
      | some (kcs, r1) =>
          match r1 with
          | ':' :: r2 =>
              match pJ f r2 with
              | some (v, r3) =>
                  match r3 with
                  | ',' :: r4 =>
                      (match pO f r4 with
                       | some (kvs, rest) => some ((String.mk kcs, v) :: kvs, rest)
                       | none => none)
                  | '}' :: r4 => some ([(String.mk kcs, v)], r4)
                  | _ => none
              | none => none
          | _ => none
      | none => none := rfl

mutual
theorem rtJ : ∀ (j : JVal) (fuel : Nat) (rest : List Char),
    (jser j).length < fuel → noDigitHead rest = true →
    pJ fuel (jser j ++ rest) = some (j, rest)
  | .jnull, fuel, rest, hf, _ => by
      cases fuel with
      | zero => simp [jser] at hf
      | succ f => simp [jser, pJ]
  | .jbool b, fuel, rest, hf, _ => by
      cases fuel with
      | zero => cases b <;> simp [jser] at hf
      | succ f => cases b <;> simp [jser, pJ]
  | .jint n, fuel, rest, hf, hrest => by
      cases fuel with
      | zero => exact absurd hf (by omega)
      | succ f =>
          have h1 : jser (.jint n) = intChars n := by simp [jser]
          rw [h1]
          exact pJ_int n f rest hrest
  | .jstr s, fuel, rest, hf, _ => by
      cases fuel with
      | zero => exact absurd hf (by omega)
      | succ f =>
          have harg : jser (.jstr s) ++ rest
              = '"' :: (escBody s.data ++ '"' :: rest) := by
            simp [jser]
          rw [harg]
          simp [pJ, pStr_escBody]
  | .jarr [], fuel, rest, hf, _ => by
      cases fuel with
      | zero => exact absurd hf (by omega)
      | succ f =>
          have harg : jser (.jarr []) ++ rest = '[' :: (']' :: rest) := by
            simp [jser, jserArr]
          rw [harg]
          simp [pJ]
  | .jarr (x :: xs), fuel, rest, hf, _ => by
      cases fuel with
      | zero => exact absurd hf (by omega)
      | succ f =>
          have harg : jser (.jarr (x :: xs)) ++ rest
              = '[' :: (jserArr (x :: xs) ++ (']' :: rest)) := by
            simp [jser]
          rw [harg]
          obtain ⟨c, t, hct, hcb, -⟩ := jser_head x
          obtain ⟨u, hu⟩ := jserArr_cons x xs
          have hinner : jserArr (x :: xs) ++ (']' :: rest)
              = c :: (t ++ (u ++ ']' :: rest)) := by
            rw [hu, hct]; simp
          have hjl : (jser (.jarr (x :: xs))).length
              = (jserArr (x :: xs)).length + 2 := by simp [jser]
          rw [hjl] at hf
          have hlen : (jserArr (x :: xs)).length + 1 < f := by omega
          have hkey := rtL x xs f rest hlen
          rw [hinner, pJ_arr_step f c (t ++ (u ++ ']' :: rest)) hcb, ← hinner, hkey]
  | .jobj [], fuel, rest, hf, _ => by
      cases fuel with
      | zero => exact absurd hf (by omega)
      | succ f =>
          have harg : jser (.jobj []) ++ rest = '{' :: ('}' :: rest) := by
            simp [jser, jserObj]
          rw [harg]
          simp [pJ]
  | .jobj ((k, v) :: kvs), fuel, rest, hf, _ => by
      cases fuel with
      | zero => exact absurd hf (by omega)
      | succ f =>
          have harg : jser (.jobj ((k, v) :: kvs)) ++ rest
              = '{' :: (jserObj ((k, v) :: kvs) ++ ('}' :: rest)) := by
            simp [jser]
          rw [harg]
          obtain ⟨u, hu⟩ := jserObj_cons k v kvs
          have hinner : jserObj ((k, v) :: kvs) ++ ('}' :: rest)
              = '"' :: (u ++ '}' :: rest) := by
            rw [hu]; simp
          have hjl : (jser (.jobj ((k, v) :: kvs))).length
              = (jserObj ((k, v) :: kvs)).length + 2 := by simp [jser]
          rw [hjl] at hf
          have hlen : (jserObj ((k, v) :: kvs)).length + 1 < f := by omega
          have hkey := rtO k v kvs f rest hlen
          rw [hinner, pJ_obj_step f '"' (u ++ '}' :: rest) (by decide), ← hinner, hkey]
  termination_by j _ _ _ _ => sizeOf j
theorem rtL : ∀ (x : JVal) (xs : List JVal) (fuel : Nat) (rest : List Char),
    (jserArr (x :: xs)).length + 1 < fuel →
    pL fuel (jserArr (x :: xs) ++ ']' :: rest) = some (x :: xs, rest)
  | x, [], fuel, rest, hf => by
      cases fuel with
      | zero => omega
      | succ f =>
          have h1 : jserArr [x] = jser x := by simp [jserArr]
          have hfx : (jser x).length < f := by
            rw [h1] at hf; omega
          have hv := rtJ x f (']' :: rest) hfx (by simp [noDigitHead])
          rw [h1, pL_step, hv]
          rfl
  | x, y :: ys, fuel, rest, hf => by
      cases fuel with
      | zero => omega
      | succ f =>
          have h1 : jserArr (x :: y :: ys) = jser x ++ ',' :: jserArr (y :: ys) := by
            simp [jserArr]
          have hl1 : (jserArr (x :: y :: ys)).length
              = (jser x).length + 1 + (jserArr (y :: ys)).length := by
            rw [h1]; simp; omega
          rw [hl1] at hf
          have hlx : (jser x).length < f := by
            have := jser_len_pos (.jarr (y :: ys))
            omega
          have hly : (jserArr (y :: ys)).length + 1 < f := by
            have := jser_len_pos x
            omega
          have harg : jserArr (x :: y :: ys) ++ ']' :: rest
              = jser x ++ (',' :: (jserArr (y :: ys) ++ ']' :: rest)) := by
            rw [h1]; simp
          have hv := rtJ x f (',' :: (jserArr (y :: ys) ++ ']' :: rest)) hlx
            (by simp [noDigitHead])
          have hkey := rtL y ys f rest hly
          rw [harg, pL_step, hv]
          simp [hkey]
  termination_by x xs _ _ _ => sizeOf x + sizeOf xs
theorem rtO : ∀ (k : String) (v : JVal) (kvs : List (String × JVal))
    (fuel : Nat) (rest : List Char),
    (jserObj ((k, v) :: kvs)).length + 1 < fuel →
    pO fuel (jserObj ((k, v) :: kvs) ++ '}' :: rest) = some ((k, v) :: kvs, rest)
  | k, v, [], fuel, rest, hf => by
      cases fuel with
      | zero => omega
      | succ f =>
          have h1 : jserObj [(k, v)] = '"' :: (escBody k.data ++ '"' :: ':' :: jser v) := by
            simp [jserObj]
          have hl1 : (jserObj [(k, v)]).length
              = (escBody k.data).length + (jser v).length + 3 := by
            rw [h1]; simp
            omega
          rw [hl1] at hf
          have hlv : (jser v).length < f := by omega
          have harg : jserObj [(k, v)] ++ '}' :: rest
              = '"' :: (escBody k.data ++ ('"' :: (':' :: (jser v ++ '}' :: rest)))) := by
            rw [h1]; simp
          have hv := rtJ v f ('}' :: rest) hlv (by simp [noDigitHead])
          rw [harg, pO_step, pStr_escBody]
          simp [hv, strMk_data]
  | k, v, (k2, v2) :: kvs, fuel, rest, hf => by
      cases fuel with
      | zero => omega
      | succ f =>
          have h1 : jserObj ((k, v) :: (k2, v2) :: kvs)
              = '"' :: (escBody k.data ++ '"' :: ':'
                  :: (jser v ++ ',' :: jserObj ((k2, v2) :: kvs))) := by
            simp [jserObj]
          have hl1 : (jserObj ((k, v) :: (k2, v2) :: kvs)).length
              = (escBody k.data).length + (jser v).length
                + (jserObj ((k2, v2) :: kvs)).length + 4 := by
            rw [h1]; simp
            omega
          rw [hl1] at hf
          have hlv : (jser v).length < f := by omega
          have hlk : (jserObj ((k2, v2) :: kvs)).length + 1 < f := by omega
          have harg : jserObj ((k, v) :: (k2, v2) :: kvs) ++ '}' :: rest
              = '"' :: (escBody k.data
                  ++ '"' :: (':' :: (jser v
                      ++ (',' :: (jserObj ((k2, v2) :: kvs) ++ '}' :: rest))))) := by
            rw [h1]; simp
          have hv := rtJ v f (',' :: (jserObj ((k2, v2) :: kvs) ++ '}' :: rest)) hlv
            (by simp [noDigitHead])
          have hkey := rtO k2 v2 kvs f rest hlk
          rw [harg, pO_step, pStr_escBody]
          simp [hv, hkey, strMk_data]
  termination_by k v kvs _ _ _ => sizeOf v + sizeOf kvs
end

theorem jparse_jser (j : JVal) : jparse (jser j) = some j := by
  have h := rtJ j ((jser j).length + 1) [] (by omega) rfl
  rw [List.append_nil] at h
  rw [jparse, h]

/-! ## 10. UTF-8 and base64 round-trips -/

theorem char_valid (c : Char) : c.toNat < 55296 ∨ (57343 < c.toNat ∧ c.toNat < 1114112) := by
  have h := c.valid
  unfold UInt32.isValidChar Nat.isValidChar at h
  exact h

theorem utf8Char_lt256 (c : Char) : ∀ b ∈ utf8Char c, b < 256 := by
  have hv := char_valid c
  intro b hb
  rw [utf8Char] at hb
  split at hb <;>
    [skip; split at hb <;> [skip; split at hb]] <;>
    simp at hb <;> omega

theorem utf8Enc_lt256 (l : List Char) : ∀ b ∈ utf8Enc l, b < 256 := by
  induction l with
  | nil => intro b hb; simp [utf8Enc] at hb
  | cons c t ih =>
      intro b hb
      rw [utf8Enc, List.mem_append] at hb
      rcases hb with hb | hb
      · exact utf8Char_lt256 c b hb
      · exact ih b hb

theorem utf8Char_len_pos (c : Char) : 1 ≤ (utf8Char c).length := by
  rw [utf8Char]
  split
  · simp
  · split
    · simp
    · split <;> simp

theorem utf8Enc_len (l : List Char) : l.length ≤ (utf8Enc l).length := by
  induction l with
  | nil => simp [utf8Enc]
  | cons c t ih =>
      rw [utf8Enc]
      simp only [List.length_append, List.length_cons]
      have := utf8Char_len_pos c
      omega

theorem utf8DecF_char (c : Char) (f : Nat) (rest : List Nat) :
    utf8DecF (f + 1) (utf8Char c ++ rest) = (utf8DecF f rest).map (fun l => c :: l) := by
  have hval := char_valid c
  rw [utf8Char]
  by_cases h1 : c.toNat < 128
  · rw [if_pos h1]
    simp only [List.cons_append, List.nil_append, utf8DecF, if_pos h1, Char.ofNat_toNat]
    cases hr : utf8DecF f rest <;> simp [hr]
  · rw [if_neg h1]
    by_cases h2 : c.toNat < 2048
    · rw [if_pos h2]
      have e1 : ¬(192 + c.toNat / 64 < 128) := by omega
      have e2 : ¬(192 + c.toNat / 64 < 192) := by omega
      have e3 : 192 + c.toNat / 64 < 224 := by omega
      have e4 : isCont (128 + c.toNat % 64) := by unfold isCont; omega
      have e5 : (192 + c.toNat / 64 - 192) * 64 + (128 + c.toNat % 64 - 128) = c.toNat := by
        omega
      have e6 : 128 ≤ (192 + c.toNat / 64 - 192) * 64 + (128 + c.toNat % 64 - 128) := by
        omega
      have ee : c.toNat / 64 * 64 + c.toNat % 64 = c.toNat := by omega
      simp only [List.cons_append, List.nil_append, utf8DecF, if_neg e1, if_neg e2,
        if_pos e3, e4, if_true, if_pos e6, e5, Char.ofNat_toNat]
      cases hr : utf8DecF f rest <;> simp [hr, isCont, ee, Char.ofNat_toNat] <;> omega
    · rw [if_neg h2]
      by_cases h3 : c.toNat < 65536
      · rw [if_pos h3]
        have e1 : ¬(224 + c.toNat / 4096 < 128) := by omega
        have e2 : ¬(224 + c.toNat / 4096 < 192) := by omega
        have e3 : ¬(224 + c.toNat / 4096 < 224) := by omega
        have e4 : 224 + c.toNat / 4096 < 240 := by omega
        have e5 : isCont (128 + c.toNat / 64 % 64) ∧ isCont (128 + c.toNat % 64) := by
          unfold isCont; omega
        have e6 : (224 + c.toNat / 4096 - 224) * 4096 + (128 + c.toNat / 64 % 64 - 128) * 64
            + (128 + c.toNat % 64 - 128) = c.toNat := by omega
        have e7 : 2048 ≤ (224 + c.toNat / 4096 - 224) * 4096
              + (128 + c.toNat / 64 % 64 - 128) * 64 + (128 + c.toNat % 64 - 128)
            ∧ ¬(55296 ≤ (224 + c.toNat / 4096 - 224) * 4096
              + (128 + c.toNat / 64 % 64 - 128) * 64 + (128 + c.toNat % 64 - 128)
              ∧ (224 + c.toNat / 4096 - 224) * 4096
              + (128 + c.toNat / 64 % 64 - 128) * 64 + (128 + c.toNat % 64 - 128) < 57344) := by
          omega
        have ee : c.toNat / 4096 * 4096 + c.toNat / 64 % 64 * 64 + c.toNat % 64
            = c.toNat := by omega
        simp only [List.cons_append, List.nil_append, utf8DecF, if_neg e1, if_neg e2,
          if_neg e3, if_pos e4, e5, if_true, if_pos e7, e6, Char.ofNat_toNat]
        cases hr : utf8DecF f rest <;> simp [hr, isCont, ee, Char.ofNat_toNat] <;> omega
      · rw [if_neg h3]
        have e1 : ¬(240 + c.toNat / 262144 < 128) := by omega
        have e2 : ¬(240 + c.toNat / 262144 < 192) := by omega
        have e3 : ¬(240 + c.toNat / 262144 < 224) := by omega
        have e4 : ¬(240 + c.toNat / 262144 < 240) := by omega
        have e5 : 240 + c.toNat / 262144 < 248 := by omega
        have e6 : isCont (128 + c.toNat / 4096 % 64) ∧ isCont (128 + c.toNat / 64 % 64)
            ∧ isCont (128 + c.toNat % 64) := by unfold isCont; omega
        have e7 : (240 + c.toNat / 262144 - 240) * 262144
            + (128 + c.toNat / 4096 % 64 - 128) * 4096
            + (128 + c.toNat / 64 % 64 - 128) * 64 + (128 + c.toNat % 64 - 128) = c.toNat := by
          omega
        have e8 : 65536 ≤ (240 + c.toNat / 262144 - 240) * 262144
              + (128 + c.toNat / 4096 % 64 - 128) * 4096
              + (128 + c.toNat / 64 % 64 - 128) * 64 + (128 + c.toNat % 64 - 128)
            ∧ (240 + c.toNat / 262144 - 240) * 262144
              + (128 + c.toNat / 4096 % 64 - 128) * 4096
              + (128 + c.toNat / 64 % 64 - 128) * 64 + (128 + c.toNat % 64 - 128)
              < 1114112 := by omega
        have ee : c.toNat / 262144 * 262144 + c.toNat / 4096 % 64 * 4096
            + c.toNat / 64 % 64 * 64 + c.toNat % 64 = c.toNat := by omega
        simp only [List.cons_append, List.nil_append, utf8DecF, if_neg e1, if_neg e2,
          if_neg e3, if_neg e4, if_pos e5, e6, if_true, if_pos e8, e7, Char.ofNat_toNat]
        cases hr : utf8DecF f rest <;> simp [hr, isCont, ee, Char.ofNat_toNat] <;> omega

theorem utf8DecF_enc : ∀ (l : List Char) (fuel : Nat), l.length < fuel →
    utf8DecF fuel (utf8Enc l) = some l := by
  intro l
  induction l with
  | nil =>
      intro fuel hf
      cases fuel with
      | zero => omega
      | succ f => rfl
  | cons c t ih =>
      intro fuel hf
      cases fuel with
      | zero => omega
      | succ f =>
          rw [utf8Enc, utf8DecF_char, ih f (by simp at hf; omega)]
          rfl

theorem utf8Dec_utf8Enc (l : List Char) : utf8Dec (utf8Enc l) = some l := by
  rw [utf8Dec]
  exact utf8DecF_enc l _ (by have := utf8Enc_len l; omega)

theorem b64Val_b64Chr : ∀ n, n < 64 → b64Val (b64Chr n) = some n := by decide

theorem b64Chr_ne_pad : ∀ n, n < 64 → b64Chr n ≠ '=' := by decide

theorem b64Enc_cons (d : Nat) (ds : List Nat) : ∃ w ws, b64Enc (d :: ds) = w :: ws := by
  match ds with
  | [] => exact ⟨_, _, rfl⟩
  | [e] => exact ⟨_, _, rfl⟩
  | e :: f :: t => exact ⟨_, _, by rw [b64Enc]⟩

theorem b64Dec_b64Enc : ∀ bs : List Nat, (∀ b ∈ bs, b < 256) → b64Dec (b64Enc bs) = some bs := by
  intro bs
  induction bs using b64Enc.induct with
  | case1 => intro _; rfl
  | case2 a =>
      intro hlt
      have ha : a < 256 := hlt a (by simp)
      have k1 := b64Val_b64Chr (a / 4) (by omega)
      have k2 := b64Val_b64Chr (a % 4 * 16) (by omega)
      simp [b64Enc, b64Dec, k1, k2]
      omega
  | case3 a b =>
      intro hlt
      have ha : a < 256 := hlt a (by simp)
      have hb : b < 256 := hlt b (by simp)
      have k1 := b64Val_b64Chr (a / 4) (by omega)
      have k2 := b64Val_b64Chr (a % 4 * 16 + b / 16) (by omega)
      have k3 := b64Val_b64Chr (b % 16 * 4) (by omega)
      have hne : b64Chr (b % 16 * 4) ≠ '=' := b64Chr_ne_pad _ (by omega)
      simp [b64Enc, b64Dec, k1, k2, k3, hne]
      constructor <;> omega
  | case4 a b c t ih =>
      intro hlt
      have ha : a < 256 := hlt a (by simp)
      have hb : b < 256 := hlt b (by simp)
      have hc : c < 256 := hlt c (by simp)
      have k1 := b64Val_b64Chr (a / 4) (by omega)
      have k2 := b64Val_b64Chr (a % 4 * 16 + b / 16) (by omega)
      have k3 := b64Val_b64Chr (b % 16 * 4 + c / 64) (by omega)
      have k4 := b64Val_b64Chr (c % 64) (by omega)
      have hrec := ih (fun x hx => hlt x (by simp [hx]))
      cases t with
      | nil =>
          have hne3 : b64Chr (b % 16 * 4 + c / 64) ≠ '=' := b64Chr_ne_pad _ (by omega)
          have hne4 : b64Chr (c % 64) ≠ '=' := b64Chr_ne_pad _ (by omega)
          simp [b64Enc, b64Dec, k1, k2, k3, k4, hne3, hne4]
          refine ⟨by omega, by omega, by omega⟩
      | cons d ds =>
          obtain ⟨w, ws, hw⟩ := b64Enc_cons d ds
          rw [b64Enc, hw]
          rw [hw] at hrec
          simp [b64Dec, k1, k2, k3, k4, hrec]
          refine ⟨by omega, by omega, by omega⟩

/-! ## 11. Struct codec round-trips and the header codecs -/

theorem rt_RI (r : ResourceInfo) :
    unmarshalResourceInfo (marshalResourceInfo r) = some r := by
  obtain ⟨u, d, m⟩ := r
  by_cases hd : d = "" <;> by_cases hm : m = "" <;>
    simp [marshalResourceInfo, unmarshalResourceInfo, getStr, jlookup, hd, hm]

theorem rt_PR (r : PaymentRequirements) :
    unmarshalPaymentRequirements (marshalPaymentRequirements r) = some r := by
  obtain ⟨s, n, a, as, pt, mt, ex⟩ := r
  cases ex <;>
    simp [marshalPaymentRequirements, unmarshalPaymentRequirements,
      getStr, getInt, getMap, jlookup, List.isEmpty]

theorem rt_Ext (e : Extension) :
    unmarshalExtension (marshalExtension e) = some e := by
  obtain ⟨i, s⟩ := e
  simp [marshalExtension, unmarshalExtension, getMap, jlookup]

theorem rt_PP (p : PaymentPayload) :
    unmarshalPaymentPayload (marshalPaymentPayload p) = some p := by
  obtain ⟨v, res, ⟨s, n, a, as, pt, mt, ex⟩, pl, exts⟩ := p
  cases res with
  | none =>
      cases ex <;> cases exts <;>
        simp [marshalPaymentPayload, unmarshalPaymentPayload,
          marshalPaymentRequirements, unmarshalPaymentRequirements,
          getStr, getInt, getMap, jlookup, List.isEmpty]
  | some r =>
      obtain ⟨u, d, m⟩ := r
      by_cases hd : d = "" <;> by_cases hm : m = "" <;> cases ex <;> cases exts <;>
        simp [marshalPaymentPayload, unmarshalPaymentPayload,
          marshalResourceInfo, unmarshalResourceInfo,
          marshalPaymentRequirements, unmarshalPaymentRequirements,
          getStr, getInt, getMap, jlookup, List.isEmpty, hd, hm]

theorem mapM_loop_PR (l : List PaymentRequirements) (acc : List PaymentRequirements) :
    List.mapM.loop unmarshalPaymentRequirements (l.map marshalPaymentRequirements) acc
      = some (acc.reverse ++ l) := by
  induction l generalizing acc with
  | nil => simp [List.mapM.loop]
  | cons a t ih => simp [List.mapM.loop, rt_PR a, ih]

theorem mapM_loop_Ext (l : List (String × Extension)) (acc : List (String × Extension)) :
    List.mapM.loop (fun kv => (unmarshalExtension kv.2).map (fun e => (kv.1, e)))
      (l.map (fun kv => (kv.1, marshalExtension kv.2))) acc = some (acc.reverse ++ l) := by
  induction l generalizing acc with
  | nil => simp [List.mapM.loop]
  | cons a t ih => simp [List.mapM.loop, rt_Ext a.2, ih]

theorem mapM_loop_Ext2 (a : String × Extension) (t : List (String × Extension))
    (acc : List (String × Extension)) :
    List.mapM.loop (fun kv => (unmarshalExtension kv.2).map (fun e => (kv.1, e)))
      ((a.1, marshalExtension a.2) :: t.map (fun kv => (kv.1, marshalExtension kv.2))) acc
      = some (acc.reverse ++ a :: t) := by
  simp [List.mapM.loop, rt_Ext a.2, mapM_loop_Ext]

theorem rt_PReq (p : PaymentRequired) :
    unmarshalPaymentRequired (marshalPaymentRequired p) = some p := by
  obtain ⟨v, err, res, acc, exts⟩ := p
  cases res with
  | none =>
      by_cases herr : err = "" <;> cases exts <;>
        simp [marshalPaymentRequired, unmarshalPaymentRequired,
          getStr, getInt, jlookup, List.isEmpty, herr, mapM_loop_PR, mapM_loop_Ext2]
  | some r =>
      obtain ⟨u, d, m⟩ := r
      by_cases herr : err = "" <;> by_cases hd : d = "" <;> by_cases hm : m = "" <;>
        cases exts <;>
        simp [marshalPaymentRequired, unmarshalPaymentRequired,
          marshalResourceInfo, unmarshalResourceInfo,
          getStr, getInt, jlookup, List.isEmpty, herr, hd, hm, mapM_loop_PR, mapM_loop_Ext2]

theorem rt_LPP (p : Legacy.PaymentPayload) :
    Legacy.unmarshalPaymentPayload (Legacy.marshalPaymentPayload p) = some p := by
  obtain ⟨v, s, n, pl⟩ := p
  simp [Legacy.marshalPaymentPayload, Legacy.unmarshalPaymentPayload,
    getStr, getInt, getMap, jlookup]

theorem b64_roundtrip_utf8 (j : JVal) :
    b64Dec (b64Enc (utf8Enc (jser j))) = some (utf8Enc (jser j)) :=
  b64Dec_b64Enc _ (utf8Enc_lt256 _)

theorem DecodePaymentHeader_encode (p : PaymentPayload) :
    DecodePaymentHeader (encodePaymentHeader p) = .ok p := by
  simp [DecodePaymentHeader, encodePaymentHeader, b64_roundtrip_utf8,
    utf8Dec_utf8Enc, jparse_jser, rt_PP]

theorem decodePRH_encode (p : PaymentRequired) :
    decodePaymentRequiredHeader (encodePaymentRequiredHeader p) = some p := by
  simp [decodePaymentRequiredHeader, encodePaymentRequiredHeader, b64_roundtrip_utf8,
    utf8Dec_utf8Enc, jparse_jser, rt_PReq]

theorem legacy_decode_encode (p : Legacy.PaymentPayload) :
    Legacy.DecodePaymentHeader
      (String.mk (b64Enc (utf8Enc (jser (Legacy.marshalPaymentPayload p))))) = .ok p := by
  simp [Legacy.DecodePaymentHeader, b64_roundtrip_utf8,
    utf8Dec_utf8Enc, jparse_jser, rt_LPP]

/-! ## 12. Middleware trace lemmas -/

theorem writesAfter_setHeaders (succ calls : Nat) (hs : List (String × String))
    (rest : List Ev) :
    writesAfterOneSettle succ calls
        ((hs.map fun kv => Ev.setHeader kv.1 kv.2) ++ rest)
      = writesAfterOneSettle succ calls rest := by
  induction hs with
  | nil => rfl
  | cons a t ih => simp [writesAfterOneSettle, ih]

theorem bwSetHeader_overflow (w : BufferedWriter) (k v : String) :
    (bwSetHeader w k v).overflow = w.overflow := rfl

theorem bwSetHeader_status (w : BufferedWriter) (k v : String) :
    (bwSetHeader w k v).status = w.status := rfl

theorem foldHeaders_overflow (hs : List (String × String)) (w : BufferedWriter) :
    (hs.foldl (fun acc kv => bwSetHeader acc kv.1 kv.2) w).overflow = w.overflow := by
  induction hs generalizing w with
  | nil => rfl
  | cons a t ih => rw [List.foldl_cons, ih, bwSetHeader_overflow]

theorem overflow_write_errs (ds : List (List Nat)) (w : BufferedWriter)
    (h0 : w.overflow = false) (h1 : (bwWriteAll w ds).1.overflow = true) :
    ∃ e, Except.error e ∈ (bwWriteAll w ds).2 := by
  induction ds generalizing w with
  | nil =>
      rw [bwWriteAll] at h1
      rw [h0] at h1
      cases h1
  | cons d t ih =>
      by_cases hc : w.maxSize > 0 ∧ (w.body.length : Int) + d.length > w.maxSize
      · refine ⟨"response exceeds max buffer size (" ++ intStr w.maxSize ++ " bytes)", ?_⟩
        simp [bwWriteAll, bwWrite, hc]
      · rw [bwWriteAll] at h1
        simp only [bwWrite, if_neg hc] at h1
        obtain ⟨e, he⟩ := ih { w with body := w.body ++ d } h0 h1
        exact ⟨e, by simp [bwWriteAll, bwWrite, if_neg hc, he]⟩

theorem runDownstream_error_of_overflow (w : BufferedWriter) (h : HandlerSpec)
    (h0 : w.overflow = false) (h1 : (runDownstream w h).1.overflow = true) :
    ∃ e, Except.error e ∈ (runDownstream w h).2 := by
  rw [runDownstream] at h1 ⊢
  cases hs : h.statusSet with
  | none =>
      rw [hs] at h1
      exact overflow_write_errs _ _ (by rw [foldHeaders_overflow, h0]) h1
  | some st =>
      rw [hs] at h1
      exact overflow_write_errs _ _ (by rw [show ∀ w : BufferedWriter, (bwWriteHeader w st).overflow = w.overflow from fun _ => rfl, foldHeaders_overflow, h0]) h1

/-! ## 13. Verifier and settler evaluation helpers -/

theorem verify_passes_stub : verifyExactScheme stubEnv c10Payload c10Reqs = (true, "") := by
  decide

theorem intStr_one : intStr 1 = "1" := by
  rw [intStr, intChars, if_neg (by decide : ¬ (1:Int) < 0)]
  rw [show ((1:Int).natAbs) = 1 from rfl, natChars]
  decide

theorem settle_nonce_rejected (env : Env) (config : FacilitatorConfig) :
    sendTransferWithAuthorization env config c10Auth curReqsW sigHexW =
      ([], .error ("invalid nonce length: expected 32 bytes, got " ++ intStr 1)) := by
  rw [sendTransferWithAuthorization]
  rw [show ExtractVRS sigHexW
      = .ok (27, List.replicate 32 17, List.replicate 32 34) from rfl]
  simp [show fromHex c10Auth.nonce = [1] from by decide]

/-! ## 14. The claims -/

/-- C2: the verify pipeline runs its six stages in order with
short-circuit, but the facilitator verify response never carries the
payer: `handleVerify` leaves `payer` empty on every input, including a
request on which all six stages pass and `isValid` is `true` — against
the documented `payer = authorization.from`. -/
theorem c2_payer_empty :
    (∀ (env : Env) (config : FacilitatorConfig) (req : Legacy.VerifyRequest),
      (handleVerify env config req).payer = "") ∧
    verifyPayment stubEnv c2Req = (true, "") ∧
    handleVerify stubEnv cfgW c2Req = { isValid := true, invalidReason := "", payer := "" } := by
  have hvp : verifyPayment stubEnv c2Req = (true, "") := by
    have h1 : Legacy.DecodePaymentHeader c2Req.paymentHeader = .ok c10Payload :=
      legacy_decode_encode c10Payload
    rw [verifyPayment, h1]
    dsimp only
    rw [if_pos (show c10Payload.scheme = "exact" from rfl)]
    exact verify_passes_stub
  refine ⟨?_, hvp, ?_⟩
  · intro env config req
    rw [handleVerify]
    split <;> rfl
  · rw [handleVerify]
    rw [if_neg (not_not_intro (show IsSupported cfgW c2Req.paymentRequirements.scheme
      c2Req.paymentRequirements.network = true from by decide))]
    simp [hvp]

/-- C3 (amended): settlement enforces the signature format and the
32-byte nonce, but performs no signer recovery — its result does not
depend on the hashing and recovery oracles at all. -/
theorem c3_settle_oblivious (e1 e2 : Env) (config : FacilitatorConfig)
    (p : PaymentPayload) (r : PaymentRequirements)
    (hclient : e1.getClient = e2.getClient)
    (hnonce : e1.pendingNonceAt = e2.pendingNonceAt)
    (hgas : e1.suggestGasPrice = e2.suggestGasPrice)
    (hest : e1.estimateGas = e2.estimateGas)
    (hsig : e1.signTxHash = e2.signTxHash)
    (hsend : e1.sendTransaction = e2.sendTransaction) :
    settlePayment e1 config p r = settlePayment e2 config p r := by
  unfold settlePayment settleExactScheme sendTransferWithAuthorization
  simp only [hclient, hnonce, hgas, hest, hsig, hsend]

/-- C3 counterexample: with recovery oracles that can only return the
address 0x…01 — never the zero address the payment names as `from` —
settlement still broadcasts the transaction and reports success, so no
signature recovery gates the broadcast. -/
theorem c3_settle_counterexample :
    (∀ dig sg, stubEnv.sigToAddr dig sg
        ≠ .ok (hexToAddress "0x0000000000000000000000000000000000000000")) ∧
    (settlePayment stubEnv cfgW c3Cur curReqsW).2.success = true ∧
    (settlePayment stubEnv cfgW c3Cur curReqsW).1 ≠ [] := by
  refine ⟨fun dig sg h => ?_, by decide, by decide⟩
  have h2 := Except.ok.inj h
  revert h2
  decide

/-- C3 witness: replacing every hashing and recovery oracle leaves the
settlement result unchanged. -/
theorem c3_settle_witness :
    settlePayment stubEnv cfgW c3Cur curReqsW = settlePayment stubEnvB cfgW c3Cur curReqsW :=
  c3_settle_oblivious stubEnv stubEnvB cfgW c3Cur curReqsW rfl rfl rfl rfl rfl rfl

/-- C6: the amount stage rejects exactly when
`authorization.value < requirements.maxAmountRequired`, both decimal
strings read as unbounded integers, with the reason
"insufficient amount: got <value>, required <amount>"; any value at
least the requirement passes the stage. -/
theorem c6_amount_stage (auth : ExactEVMSchemeAuthorization)
    (requirements : Legacy.PaymentRequirements) (pv rv : Int)
    (hp : parseDec auth.value = some pv)
    (hr : parseDec requirements.maxAmountRequired = some rv) :
    verifyAmount auth requirements =
      if pv < rv then
        (false, "insufficient amount: got " ++ auth.value
          ++ ", required " ++ requirements.maxAmountRequired)
      else (true, "") := by
  rw [verifyAmount, hp]
  dsimp only
  rw [hr]

/-- C6 witness: value 500000 against requirement 1000000 rejects with
the documented reason string. -/
theorem c6_amount_witness :
    verifyAmount c6Auth c6Reqs =
      (false, "insufficient amount: got 500000, required 1000000") := by
  rw [c6_amount_stage c6Auth c6Reqs 500000 1000000 (by decide) (by decide)]
  decide

/-- C7: the time-window stage accepts exactly on the inclusive window
`validAfter ≤ now ≤ validBefore`; past the upper endpoint it rejects
with "payment expired (valid before <ts>)". -/
theorem c7_time_window (env : Env) (auth : ExactEVMSchemeAuthorization) :
    (verifyTimeWindow env auth = (true, "") ↔
      auth.validAfter ≤ env.now ∧ env.now ≤ auth.validBefore) ∧
    (auth.validAfter ≤ env.now → auth.validBefore < env.now →
      verifyTimeWindow env auth =
        (false, "payment expired (valid before " ++ intStr auth.validBefore ++ ")")) := by
  constructor
  · rw [verifyTimeWindow]
    split_ifs with h1 h2
    · simp
      omega
    · simp
      omega
    · simp
      omega
  · intro ha hb
    rw [verifyTimeWindow, if_neg (by omega), if_pos (by omega)]

/-- C7 witness: at clock 5, a window closing at 4 is expired. -/
theorem c7_time_window_witness :
    verifyTimeWindow stubEnv c7Auth =
      (false, "payment expired (valid before " ++ intStr c7Auth.validBefore ++ ")") :=
  (c7_time_window stubEnv c7Auth).2 (by decide) (by decide)

/-- C9: decoding an encoded payment header recovers the payload
exactly: base64 then JSON, with no partial result. -/
theorem c9_header_roundtrip (p : PaymentPayload) :
    DecodePaymentHeader (encodePaymentHeader p) = .ok p :=
  DecodePaymentHeader_encode p

/-- C10: the verifier zero-pads a short nonce and accepts the payload —
all six stages pass on a payment whose nonce hex-decodes to the single
byte 0x01 — while settlement of that same payment rejects every nonce
not decoding to exactly 32 bytes: whatever the environment and the
configuration, it broadcasts nothing and never succeeds, and reports
"invalid nonce length" whenever the RPC client connects. -/
theorem c10_nonce_asymmetry :
    verifyExactScheme stubEnv c10Payload c10Reqs = (true, "") ∧
    fromHex c10Auth.nonce = [1] ∧
    (∀ (env : Env) (config : FacilitatorConfig),
      (settleExactScheme env config c10Cur curReqsW).1 = [] ∧
      (settleExactScheme env config c10Cur curReqsW).2.success = false ∧
      (env.getClient curReqsW.network = .ok () →
        (settleExactScheme env config c10Cur curReqsW).2.errorReason =
          "failed to settle payment: invalid nonce length: expected 32 bytes, got 1")) := by
  refine ⟨verify_passes_stub, by decide, ?_⟩
  intro env config
  unfold settleExactScheme
  rw [show jlookup c10Cur.payload "signature" = some (JVal.jstr sigHexW) from rfl]
  dsimp only
  rw [if_neg (show ¬ sigHexW = "" from by decide)]
  rw [show ExtractExactAuthorization c10Cur.payload = .ok c10Auth from rfl]
  dsimp only
  cases hc : env.getClient curReqsW.network with
  | error e =>
      refine ⟨rfl, rfl, fun hok => ?_⟩
      cases hok
  | ok u =>
      cases u
      rw [settle_nonce_rejected env config]
      refine ⟨rfl, rfl, fun _ => ?_⟩
      show "failed to settle payment: "
          ++ ("invalid nonce length: expected 32 bytes, got " ++ intStr 1) = _
      rw [intStr_one]
      decide

/-- C1: in every trace of a protected, non-discovery request, any 2xx
status written to the underlying response writer is preceded by exactly
one facilitator settle call, a successful one — so no byte of a 2xx
handler body reaches the client before settlement succeeded. -/
theorem c1_settle_before_2xx (c : MiddlewareConfig) (fac : FacEnv)
    (path paymentHeader : String) (h : HandlerSpec)
    (hdisc : ¬(c.discoveryEnabled = true ∧ path = "/.well-known/x402"))
    (hprot : isProtectedPath c path = true) :
    writesAfterOneSettle 0 0 (Handler c fac path paymentHeader h) = true := by
  rw [Handler, if_neg hdisc, if_neg (not_not_intro hprot)]
  by_cases hh : paymentHeader = ""
  · rw [if_pos hh]
    simp [sendPaymentRequired, writesAfterOneSettle]
  · rw [if_neg hh]
    cases hdec : DecodePaymentHeader paymentHeader with
    | error e => simp [writesAfterOneSettle]
    | ok p =>
      dsimp only
      cases hver : fac.verify { paymentPayload := p, paymentRequirements := getRequirements c path } with
      | error e => simp [writesAfterOneSettle]
      | ok vr =>
        dsimp only
        by_cases hv : vr.isValid = true
        · rw [if_neg (not_not_intro hv)]
          rcases hrd : runDownstream (newBufferedWriter c.maxBufferSize) h with ⟨bw1, results⟩
          dsimp only
          by_cases hov : bw1.overflow = true
          · rw [if_pos hov]
            simp [writesAfterOneSettle]
          · rw [if_neg hov]
            by_cases h2 : 200 ≤ bw1.status ∧ bw1.status < 300
            · rw [if_pos h2]
              cases hst : fac.settle { paymentPayload := p, paymentRequirements := getRequirements c path } with
              | error e => simp [writesAfterOneSettle]
              | ok sr =>
                dsimp only
                by_cases hs : sr.success = true
                · rw [if_neg (not_not_intro hs)]
                  simp [writesAfterOneSettle, flushEvents, writesAfter_setHeaders,
                    bwSetHeader_status, hs, h2]
                · rw [if_pos hs]
                  simp [writesAfterOneSettle]
            · rw [if_neg h2]
              simp [writesAfterOneSettle, flushEvents, writesAfter_setHeaders, h2]
        · rw [if_pos hv]
          simp [writesAfterOneSettle]

/-- C1 witness: a concrete protected request (here one answered 402 for
a missing header) satisfies the settlement ordering. -/
theorem c1_settle_witness :
    (¬(mwcW.discoveryEnabled = true ∧ "/api/data" = "/.well-known/x402")) ∧
    isProtectedPath mwcW "/api/data" = true ∧
    writesAfterOneSettle 0 0 (Handler mwcW facW "/api/data" "" hsW) = true :=
  ⟨by decide, by decide,
   c1_settle_before_2xx mwcW facW "/api/data" "" hsW (by decide) (by decide)⟩

/-- C4: when the handler produced a 2xx into the buffer and the
facilitator settle call returns success=false, the middleware renders
the 402 into the replaced (buffered) writer and never flushes: nothing
at all is written to the underlying response writer — the client gets
neither the 402 with the settlement reason nor the buffered body. -/
theorem c4_settle_failure_swallowed (c : MiddlewareConfig) (fac : FacEnv)
    (path paymentHeader : String) (h : HandlerSpec) (p : PaymentPayload)
    (vr : VerifyResponse) (sr : SettleResponse) (bw1 : BufferedWriter)
    (res : List (Except String Nat))
    (hdisc : ¬(c.discoveryEnabled = true ∧ path = "/.well-known/x402"))
    (hprot : isProtectedPath c path = true)
    (hhdr : ¬ paymentHeader = "")
    (hdec : DecodePaymentHeader paymentHeader = .ok p)
    (hver : fac.verify { paymentPayload := p, paymentRequirements := getRequirements c path } = .ok vr)
    (hvalid : vr.isValid = true)
    (hrd : runDownstream (newBufferedWriter c.maxBufferSize) h = (bw1, res))
    (hov : bw1.overflow = false)
    (h2xx : 200 ≤ bw1.status ∧ bw1.status < 300)
    (hset : fac.settle { paymentPayload := p, paymentRequirements := getRequirements c path } = .ok sr)
    (hfail : sr.success = false) :
    Handler c fac path paymentHeader h =
      [.verifyCalled (.ok vr), .handlerRan, .settleCalled (.ok sr)] ∧
    underlyingWrites (Handler c fac path paymentHeader h) = [] := by
  have hmain : Handler c fac path paymentHeader h =
      [.verifyCalled (.ok vr), .handlerRan, .settleCalled (.ok sr)] := by
    rw [Handler, if_neg hdisc, if_neg (not_not_intro hprot), if_neg hhdr, hdec]
    dsimp only
    rw [hver]
    dsimp only
    rw [if_neg (not_not_intro hvalid)]
    rw [hrd]
    dsimp only
    rw [if_neg (show ¬ bw1.overflow = true from by simp [hov])]
    rw [if_pos h2xx]
    rw [hset]
    dsimp only
    rw [if_pos (show ¬ sr.success = true from by simp [hfail])]
  exact ⟨hmain, by rw [hmain]; rfl⟩

/-- C4 witness: a concrete protected request whose settle call fails:
the trace holds the three calls and no underlying write. -/
theorem c4_settle_failure_witness :
    Handler mwcW facOkFail "/api/data" hdrW hsW =
      [.verifyCalled (.ok vrOk), .handlerRan, .settleCalled (.ok srFail)] ∧
    underlyingWrites (Handler mwcW facOkFail "/api/data" hdrW hsW) = [] :=
  c4_settle_failure_swallowed mwcW facOkFail "/api/data" hdrW hsW ppW vrOk srFail
    (runDownstream (newBufferedWriter mwcW.maxBufferSize) hsW).1
    (runDownstream (newBufferedWriter mwcW.maxBufferSize) hsW).2
    (by decide) (by decide) (by decide)
    (DecodePaymentHeader_encode ppW) rfl rfl rfl (by decide) (by decide) rfl rfl

/-- C5: when the handler overflows the response buffer, some buffered
write returned an error to the handler, no settle call is made and no
partial body is flushed — but the 500 the spec promises is rendered
into the never-flushed buffer, so nothing is written to the underlying
writer at all. -/
theorem c5_overflow_no_settle (c : MiddlewareConfig) (fac : FacEnv)
    (path paymentHeader : String) (h : HandlerSpec) (p : PaymentPayload)
    (vr : VerifyResponse) (bw1 : BufferedWriter)
    (res : List (Except String Nat))
    (hdisc : ¬(c.discoveryEnabled = true ∧ path = "/.well-known/x402"))
    (hprot : isProtectedPath c path = true)
    (hhdr : ¬ paymentHeader = "")
    (hdec : DecodePaymentHeader paymentHeader = .ok p)
    (hver : fac.verify { paymentPayload := p, paymentRequirements := getRequirements c path } = .ok vr)
    (hvalid : vr.isValid = true)
    (hrd : runDownstream (newBufferedWriter c.maxBufferSize) h = (bw1, res))
    (hov : bw1.overflow = true) :
    Handler c fac path paymentHeader h = [.verifyCalled (.ok vr), .handlerRan] ∧
    underlyingWrites (Handler c fac path paymentHeader h) = [] ∧
    settleCalls (Handler c fac path paymentHeader h) = 0 ∧
    ∃ e, Except.error e ∈ res := by
  have hmain : Handler c fac path paymentHeader h = [.verifyCalled (.ok vr), .handlerRan] := by
    rw [Handler, if_neg hdisc, if_neg (not_not_intro hprot), if_neg hhdr, hdec]
    dsimp only
    rw [hver]
    dsimp only
    rw [if_neg (not_not_intro hvalid)]
    rw [hrd]
    dsimp only
    rw [if_pos hov]
  refine ⟨hmain, by rw [hmain]; rfl, by rw [hmain]; rfl, ?_⟩
  have herr := runDownstream_error_of_overflow (newBufferedWriter c.maxBufferSize) h rfl
    (by rw [hrd]; exact hov)
  rw [hrd] at herr
  exact herr

/-- C5 witness: a two-byte body against a one-byte ceiling: the write
errors, nothing is flushed, no settle call happens. -/
theorem c5_overflow_witness :
    Handler mwcSmall facOkFail "/api/data" hdrW hsW = [.verifyCalled (.ok vrOk), .handlerRan] ∧
    underlyingWrites (Handler mwcSmall facOkFail "/api/data" hdrW hsW) = [] ∧
    settleCalls (Handler mwcSmall facOkFail "/api/data" hdrW hsW) = 0 ∧
    ∃ e, Except.error e ∈ (runDownstream (newBufferedWriter mwcSmall.maxBufferSize) hsW).2 :=
  c5_overflow_no_settle mwcSmall facOkFail "/api/data" hdrW hsW ppW vrOk
    (runDownstream (newBufferedWriter mwcSmall.maxBufferSize) hsW).1
    (runDownstream (newBufferedWriter mwcSmall.maxBufferSize) hsW).2
    (by decide) (by decide) (by decide)
    (DecodePaymentHeader_encode ppW) rfl rfl rfl (by decide)

/-- C8: a protected request without a payment header gets exactly a
PAYMENT-REQUIRED header and a 402 body, both carrying the
PaymentRequired challenge: version 2, error
"PAYMENT-SIGNATURE header is required" under the default header name,
resource.url = the request path, accepts = the selected requirements;
the header decodes back to that same challenge. -/
theorem c8_no_header_402 (c : MiddlewareConfig) (fac : FacEnv) (path : String)
    (h : HandlerSpec)
    (hdisc : ¬(c.discoveryEnabled = true ∧ path = "/.well-known/x402"))
    (hprot : isProtectedPath c path = true)
    (hname : c.paymentHeaderName = "") :
    Handler c fac path "" h =
      [.setHeader "PAYMENT-REQUIRED"
        (encodePaymentRequiredHeader (paymentRequiredResponse c path)),
       .wrote 402 (jsonBytes (marshalPaymentRequired (paymentRequiredResponse c path)))] ∧
    decodePaymentRequiredHeader
        (encodePaymentRequiredHeader (paymentRequiredResponse c path))
      = some (paymentRequiredResponse c path) ∧
    (paymentRequiredResponse c path).x402Version = 2 ∧
    (paymentRequiredResponse c path).error = "PAYMENT-SIGNATURE header is required" ∧
    Option.map ResourceInfo.url (paymentRequiredResponse c path).resource = some path ∧
    (paymentRequiredResponse c path).accepts = [getRequirements c path] := by
  refine ⟨?_, decodePRH_encode _, rfl, ?_, ?_, rfl⟩
  · rw [Handler, if_neg hdisc, if_neg (not_not_intro hprot), if_pos rfl]
    rfl
  · show GetPaymentHeaderName c ++ " header is required" = _
    rw [GetPaymentHeaderName, if_pos hname]
    decide
  · unfold paymentRequiredResponse
    cases c.routeResources.find? (fun kv => kv.1 == path) <;> rfl

/-- C8 witness: the concrete protected path of `mwcW` without a header:
the exact 402 trace, and the header round-trips to the challenge. -/
theorem c8_no_header_witness :
    Handler mwcW facW "/api/data" "" hsW =
      [.setHeader "PAYMENT-REQUIRED"
        (encodePaymentRequiredHeader (paymentRequiredResponse mwcW "/api/data")),
       .wrote 402 (jsonBytes (marshalPaymentRequired (paymentRequiredResponse mwcW "/api/data")))] ∧
    decodePaymentRequiredHeader
        (encodePaymentRequiredHeader (paymentRequiredResponse mwcW "/api/data"))
      = some (paymentRequiredResponse mwcW "/api/data") ∧
    (paymentRequiredResponse mwcW "/api/data").x402Version = 2 ∧
    (paymentRequiredResponse mwcW "/api/data").error = "PAYMENT-SIGNATURE header is required" ∧
    Option.map ResourceInfo.url (paymentRequiredResponse mwcW "/api/data").resource
      = some "/api/data" ∧
    (paymentRequiredResponse mwcW "/api/data").accepts = [getRequirements mwcW "/api/data"] :=
  c8_no_header_402 mwcW facW "/api/data" hsW (by decide) (by decide) rfl

end X402
